import Mathlib

/-!
# goctl-typings: the TypeScript declaration generator

A shallow embedding of `generate/generate.go`.  The generator walks the type
graph produced by the goctl API parser and writes TypeScript interfaces.

* A Go `error` is a `GoError`: `errors.New` / `fmt.Errorf` without `%w` build a
  leaf, `fmt.Errorf("... %w", err)` wraps an inner error.
* A function writing to an `io.Writer` and returning an `error` becomes a
  function returning `Written`: the text it appended to the writer, and the
  error it returned (`none` for `nil`).  Both writers used by the generator
  (`strings.Builder`, `bytes.Buffer`) never fail.
* `spec.Type`, `spec.Member` and their accessors belong to the imported go-zero
  package `api/spec`; they are modelled in the first part of the file.
-/

namespace Typings

/-! ## Go errors and strings -/

/-- A Go `error` value: a leaf made by `errors.New` (or `fmt.Errorf` without
`%w`), or an error wrapped by `fmt.Errorf(pre + "%w", inner)`. -/
inductive GoError where
  | new (msg : String)
  | wrap (pre : String) (inner : GoError)
deriving DecidableEq, Repr

/-- The `Error()` message: a wrapping error prints its text followed by the
message of the error it wraps. -/
def GoError.Error : GoError → String
  | .new msg => msg
  | .wrap pre inner => pre ++ inner.Error

/-- The innermost error of a chain, reached by repeated `errors.Unwrap`. -/
def GoError.root : GoError → GoError
  | .new msg => .new msg
  | .wrap _ inner => inner.root

/-- Text appended to the writer, and the returned error (`none` is `nil`). -/
abbrev Written := String × Option GoError

/-- Go `strings.HasPrefix`. -/
def HasPrefix (s p : String) : Bool := p.data.isPrefixOf s.data

/-- Go `strings.TrimPrefix`. -/
def TrimPrefix (s p : String) : String :=
  if HasPrefix s p then String.mk (s.data.drop p.data.length) else s

/-- Go `unicode.IsSpace`. -/
def isSpace (c : Char) : Bool :=
  let n := c.toNat
  n = 9 || n = 10 || n = 11 || n = 12 || n = 13 || n = 32 || n = 0x85 || n = 0xA0 ||
  n = 0x1680 || (0x2000 ≤ n && n ≤ 0x200A) || n = 0x2028 || n = 0x2029 || n = 0x202F ||
  n = 0x205F || n = 0x3000

/-- Go `strings.TrimSpace`. -/
def TrimSpace (s : String) : String :=
  String.mk ((s.data.dropWhile isSpace).reverse.dropWhile isSpace).reverse

/-- Splitting a character list at every occurrence of `sep`. -/
def splitChars (sep : Char) : List Char → List (List Char)
  | [] => [[]]
  | c :: cs =>
    if c = sep then [] :: splitChars sep cs
    else
      match splitChars sep cs with
      | [] => [[c]]
      | h :: t => (c :: h) :: t

/-- Go `strings.Split(s, sep)` for a one-character separator. -/
def Split (s : String) (sep : Char) : List String :=
  (splitChars sep s.data).map String.mk

/-- Go `strings.Join(elems, sep)`. -/
def Join (elems : List String) (sep : String) : String := sep.intercalate elems

/-! ## The go-zero `api/spec` data model -/

/-- Modelled from the spec: a parsed struct tag of the go-zero package `api/spec`
(`spec.Tag`), which generate.go imports and which is not under src/.  It is the
binding tag of the spec's data model: `json:"id,optional"` is
`Key = "json"`, `Name = "id"`, `Options = ["optional"]`. -/
structure Tag where
  Key : String
  Name : String
  Options : List String
deriving DecidableEq, Repr

mutual
/-- Modelled from the spec: the closed union `spec.Type` of the go-zero package
`api/spec` (not under src/): the spec's Named-Composite, Nested-Composite,
Primitive, Map, Array, Interface/Any and Pointer.  Every variant carries its
`RawName`, which `Name()` returns. -/
inductive SpecType where
  | DefineStruct (RawName : String) (Members : List Member) (Docs : List String)
  | NestedStruct (RawName : String) (Members : List Member) (Docs : List String)
  | PrimitiveType (RawName : String)
  | MapType (RawName : String) (Key : String) (Value : SpecType)
  | ArrayType (RawName : String) (Value : SpecType)
  | InterfaceType (RawName : String)
  | PointerType (RawName : String) (Typ : SpecType)
/-- Modelled from the spec: `spec.Member` of the go-zero package `api/spec` (not
under src/): name, type, binding tags (the parsed `Tag` string), trailing
comment, leading documentation lines and the inline flag. -/
inductive Member where
  | mk (Name : String) (Typ : SpecType) (Tags : List Tag) (Comment : String)
      (Docs : List String) (IsInline : Bool)
end

/-- Modelled from the spec: `Type.Name()` of go-zero `api/spec` returns the
variant's `RawName`. -/
def SpecType.Name : SpecType → String
  | .DefineStruct n _ _ => n
  | .NestedStruct n _ _ => n
  | .PrimitiveType n => n
  | .MapType n _ _ => n
  | .ArrayType n _ => n
  | .InterfaceType n => n
  | .PointerType n _ => n

/-- Modelled from the spec: `Type.Documents()` of go-zero `api/spec`: the leading
documentation lines of a composite, nothing for the other variants. -/
def SpecType.Documents : SpecType → List String
  | .DefineStruct _ _ d => d
  | .NestedStruct _ _ d => d
  | _ => []

/-- Field `Name` of `spec.Member`. -/
def Member.Name : Member → String
  | .mk n _ _ _ _ _ => n

/-- Field `Type` of `spec.Member`. -/
def Member.Typ : Member → SpecType
  | .mk _ t _ _ _ _ => t

/-- The parsed tags of the member, what `Member.Tags()` returns. -/
def Member.Tags : Member → List Tag
  | .mk _ _ ts _ _ _ => ts

/-- Field `Comment` of `spec.Member`. -/
def Member.Comment : Member → String
  | .mk _ _ _ c _ _ => c

/-- Field `Docs` of `spec.Member`. -/
def Member.Docs : Member → List String
  | .mk _ _ _ _ d _ => d

/-- Field `IsInline` of `spec.Member`. -/
def Member.IsInline : Member → Bool
  | .mk _ _ _ _ _ i => i

/-- The tag keys of go-zero `api/spec`. -/
def bodyTagKey : String := "json"

/-- Tag key of query/form-bound members (generate.go, line 27). -/
def formTagKey : String := "form"

/-- Tag key of path-bound members (generate.go, line 28). -/
def pathTagKey : String := "path"

/-- Tag key of header-bound members (generate.go, line 29). -/
def headerTagKey : String := "header"

/-- The tag keys go-zero `api/spec` takes a property name from. -/
def definedKeys : List String := [bodyTagKey, formTagKey, pathTagKey, headerTagKey]

/-- Modelled from the spec: `util.Title` of go-zero (not under src/) upper-cases
the first character and leaves the rest unchanged; the spec's "capitalized
name".  The first character is taken to be ASCII, as in a Go identifier that
starts with a Latin letter. -/
def Title (s : String) : String :=
  match s.data with
  | [] => s
  | c :: cs => String.mk (c.toUpper :: cs)

/-- Modelled from the spec: `util.Untitle` of go-zero (not under src/) lower-cases
the first character and leaves the rest unchanged. -/
def Untitle (s : String) : String :=
  match s.data with
  | [] => s
  | c :: cs => String.mk (c.toLower :: cs)

/-- Modelled from the spec: `Member.IsBodyMember()` of go-zero `api/spec` (not
under src/).  A member is body-bound when it is inline or carries a `json`
tag. -/
def Member.IsBodyMember (m : Member) : Bool :=
  m.IsInline || m.Tags.any (fun t => t.Key == bodyTagKey)

/-- Modelled from the spec: `Member.IsTagMember(tagKey)` of go-zero `api/spec` (not
under src/).  A member is bound to `tagKey` when it is inline or carries a tag
with that key. -/
def Member.IsTagMember (m : Member) (tagKey : String) : Bool :=
  m.IsInline || m.Tags.any (fun t => t.Key == tagKey)

/-- Modelled from the spec: `Member.GetPropertyName()` of go-zero `api/spec` (not
under src/): the name of the first tag whose key is a binding key, the
untitled member name when that name is `-`, an error when there is no such
tag. -/
def Member.GetPropertyName (m : Member) : String × Option GoError :=
  match m.Tags.find? (fun t => definedKeys.contains t.Key) with
  | some t => if t.Name = "-" then (Untitle m.Name, none) else (t.Name, none)
  | none => ("", some (.new ("json property name not exist, member: " ++ m.Name)))

/-- Modelled from the spec: `Member.GetComment()` of go-zero `api/spec` (not under
src/): the trailing comment with surrounding white space removed. -/
def Member.GetComment (m : Member) : String := TrimSpace m.Comment

/-- The first option of a tag that starts with `options=`, split at `|`. -/
def enumOfOptions : List String → Option (List String)
  | [] => none
  | o :: rest =>
    if HasPrefix o "options=" then some (Split (TrimPrefix o "options=") '|')
    else enumOfOptions rest

/-- The enumeration of the first `json` tag that declares one. -/
def enumOfTags : List Tag → Option (List String)
  | [] => none
  | t :: rest =>
    if t.Key = bodyTagKey then
      match enumOfOptions t.Options with
      | some e => some e
      | none => enumOfTags rest
    else enumOfTags rest

/-- Modelled from the spec: `Member.GetEnumOptions()` of go-zero `api/spec` (not
under src/): the member's enumerated literal set, `none` (Go `nil`) when the
member is not body-bound or declares no `options=`. -/
def Member.GetEnumOptions (m : Member) : Option (List String) :=
  if m.IsBodyMember then enumOfTags m.Tags else none

/-- Modelled from the spec: `DefineStruct.GetBodyMembers()` of go-zero `api/spec`
(not under src/): the members that are body-bound, in member order. -/
def GetBodyMembers (members : List Member) : List Member :=
  members.filter (fun m => m.IsBodyMember)

/-- Modelled from the spec: `DefineStruct.GetNonBodyMembers()` of go-zero
`api/spec` (not under src/): the members that are not body-bound, in member
order. -/
def GetNonBodyMembers (members : List Member) : List Member :=
  members.filter (fun m => !m.IsBodyMember)

/-- Modelled from the spec: `DefineStruct.GetTagMembers(tagKey)` of go-zero
`api/spec` (not under src/): the members bound to `tagKey`, in member order. -/
def GetTagMembers (members : List Member) (tagKey : String) : List Member :=
  members.filter (fun m => m.IsTagMember tagKey)

/-! ## generate.go -/

/-- `primitiveType` (generate.go, lines 92-109). -/
def primitiveType (tp : String) : String × Bool :=
  if tp = "string" ∨ tp = "uint64" ∨ tp = "int64" then ("string", true)
  else if tp = "int" ∨ tp = "int8" ∨ tp = "int16" ∨ tp = "int32" ∨ tp = "uint" ∨
      tp = "uint8" ∨ tp = "uint16" ∨ tp = "uint32" then ("number", true)
  else if tp = "float" ∨ tp = "float32" ∨ tp = "float64" then ("number", true)
  else if tp = "bool" then ("boolean", true)
  else if tp = "[]byte" then ("Blob", true)
  else if tp = "interface\x7b\x7d" ∨ tp = "any" then ("any", true)
  else ("", false)

/-- Constant `packagePrefix` (generate.go, line 22). -/
def packagePrefix : String := "components."

/-- `addPrefix` (generate.go, lines 314-319). -/
def addPrefix (tp : SpecType) (fromPacket : Bool) : String :=
  if fromPacket then packagePrefix ++ Title tp.Name else Title tp.Name

/-- `goTypeToTs` (generate.go, lines 276-312). -/
def goTypeToTs : SpecType → Bool → String × Option GoError
  | .DefineStruct n ms d, fromPacket => (addPrefix (.DefineStruct n ms d) fromPacket, none)
  | .PrimitiveType n, _ =>
    if (primitiveType n).2 then ((primitiveType n).1, none)
    else ("", some (.new ("unsupported primitive type " ++ n)))
  | .MapType _ _ v, fromPacket =>
    match goTypeToTs v fromPacket with
    | (_, some err) => ("", some err)
    | (valueType, none) => ("\x7b [key: string]: " ++ valueType ++ " \x7d", none)
  | .ArrayType n v, fromPacket =>
    if n = "[]byte" then ("Blob", none)
    else
      match goTypeToTs v fromPacket with
      | (_, some err) => ("", some err)
      | (valueType, none) => ("Array<" ++ valueType ++ ">", none)
  | .InterfaceType _, _ => ("any", none)
  | .PointerType _ t, fromPacket => goTypeToTs t fromPacket
  | .NestedStruct n _ _, _ => ("", some (.new ("unsupported type " ++ n)))

/-- `writeIndent` (generate.go, lines 237-241): `indent` tab characters. -/
def writeIndent (indent : Nat) : String := String.mk (List.replicate indent '\t')

/-- Lines 264-273 of `genTsType`: the type `ty` rendered by `goTypeToTs` is
replaced by the union of the enumerated literals, quoted when `ty` is
`string`. -/
def enumOverride (ty : String) : Option (List String) → String
  | none => ty
  | some enums =>
    if ty = "string" then Join (enums.map (fun e => "'" ++ e ++ "'")) " | "
    else Join enums " | "

/-- Lines 216-234 of `writeProperty`: what is written once `genTsType` has
returned `(ty, err)`; the indent was written before the call. -/
def writePropertyWith (g : String × Option GoError) (member : Member) (indent : Nat) :
    Written :=
  match g with
  | (_, some err) => (writeIndent indent, some err)
  | (ty, none) =>
    match member.GetPropertyName with
    | (_, some err) => (writeIndent indent, some err)
    | (name, none) =>
      let comment :=
        if member.GetComment.length > 0 then
          " // " ++ TrimSpace (TrimPrefix member.GetComment "//")
        else member.GetComment
      let docs :=
        if member.Docs.length > 0 then Join member.Docs "" ++ "\n" ++ writeIndent indent
        else ""
      (writeIndent indent ++ docs ++ (name ++ "?" ++ ": " ++ ty ++ comment ++ "\n"), none)

/-- The members `writeMembers` ranges over: `GetNonBodyMembers()` when `isParam`,
`GetBodyMembers()` otherwise (generate.go, lines 158-161). -/
def inRange (isParam : Bool) (member : Member) : Bool :=
  if isParam then !member.IsBodyMember else member.IsBodyMember

mutual
/-- `writeMembers` (generate.go, lines 147-175). -/
def writeMembers : SpecType → Bool → Nat → Written
  | .DefineStruct n members _, isParam, indent => writeMembersRange n members isParam indent
  | .PointerType _ t, isParam, indent => writeMembers t isParam indent
  | .NestedStruct n _ _, _, _ => ("", some (.new ("type " ++ n ++ " not supported")))
  | .PrimitiveType n, _, _ => ("", some (.new ("type " ++ n ++ " not supported")))
  | .MapType n _ _, _, _ => ("", some (.new ("type " ++ n ++ " not supported")))
  | .ArrayType n _, _, _ => ("", some (.new ("type " ++ n ++ " not supported")))
  | .InterfaceType n, _, _ => ("", some (.new ("type " ++ n ++ " not supported")))
/-- The loop of `writeMembers` (lines 162-173) over the members of the composite
named `owner`; a member outside the selected list is skipped, which is the
loop over `GetBodyMembers()` / `GetNonBodyMembers()`. -/
def writeMembersRange : String → List Member → Bool → Nat → Written
  | _, [], _, _ => ("", none)
  | owner, (.mk n t ts c d inl) :: rest, isParam, indent =>
    if inRange isParam (.mk n t ts c d inl) then
      if inl then
        match writeMembers t isParam indent with
        | (s, some err) => (s, some err)
        | (s, none) =>
          ((s ++ (writeMembersRange owner rest isParam indent).1),
            (writeMembersRange owner rest isParam indent).2)
      else
        match writePropertyWith (genTsType (.mk n t ts c d inl) indent)
            (.mk n t ts c d inl) indent with
        | (s, some err) => (s, some (.wrap ("Type " ++ owner ++ " generate error: ") err))
        | (s, none) =>
          ((s ++ (writeMembersRange owner rest isParam indent).1),
            (writeMembersRange owner rest isParam indent).2)
    else writeMembersRange owner rest isParam indent
/-- `genTsType` (generate.go, lines 243-274). -/
def genTsType : Member → Nat → String × Option GoError
  | .mk _ (.NestedStruct rn ms ds) _ _ _ _, indent =>
    match writeMembers (.NestedStruct rn ms ds) false (indent + 1) with
    | (_, some err) => ("", some err)
    | (s, none) => ("\x7b\n" ++ s ++ writeIndent indent ++ "\x7d", none)
  | .mk n t ts c d inl, _ =>
    (enumOverride (goTypeToTs t false).1 (Member.GetEnumOptions (.mk n t ts c d inl)),
      (goTypeToTs t false).2)
end

/-- `writeProperty` (generate.go, lines 209-235): the indent, then the field line
built from the type `genTsType` returns. -/
def writeProperty (member : Member) (indent : Nat) : Written :=
  writePropertyWith (genTsType member indent) member indent

mutual
/-- `writeTagMembers` (generate.go, lines 321-346). -/
def writeTagMembers : SpecType → String → Written
  | .DefineStruct n members _, tagKey => writeTagMembersRange n members tagKey
  | .PointerType _ t, tagKey => writeTagMembers t tagKey
  | .NestedStruct n _ _, _ => ("", some (.new ("type " ++ n ++ " not supported")))
  | .PrimitiveType n, _ => ("", some (.new ("type " ++ n ++ " not supported")))
  | .MapType n _ _, _ => ("", some (.new ("type " ++ n ++ " not supported")))
  | .ArrayType n _, _ => ("", some (.new ("type " ++ n ++ " not supported")))
  | .InterfaceType n, _ => ("", some (.new ("type " ++ n ++ " not supported")))
/-- The loop of `writeTagMembers` (lines 333-344) over the members of the
composite named `owner`; a member that `GetTagMembers(tagKey)` leaves out is
skipped. -/
def writeTagMembersRange : String → List Member → String → Written
  | _, [], _ => ("", none)
  | owner, (.mk n t ts c d inl) :: rest, tagKey =>
    if Member.IsTagMember (.mk n t ts c d inl) tagKey then
      if inl then
        match writeTagMembers t tagKey with
        | (s, some err) => (s, some err)
        | (s, none) =>
          ((s ++ (writeTagMembersRange owner rest tagKey).1),
            (writeTagMembersRange owner rest tagKey).2)
      else
        match writeProperty (.mk n t ts c d inl) 1 with
        | (s, some err) => (s, some (.wrap ("Type " ++ owner ++ " generate error: ") err))
        | (s, none) =>
          ((s ++ (writeTagMembersRange owner rest tagKey).1),
            (writeTagMembersRange owner rest tagKey).2)
    else writeTagMembersRange owner rest tagKey
end

/-- `genParamsTypesIfNeed` (generate.go, lines 177-207). -/
def genParamsTypesIfNeed : SpecType → Written
  | .DefineStruct n members d =>
    if (GetNonBodyMembers members).length = 0 then ("", none)
    else
      match writeTagMembers (.DefineStruct n members d) formTagKey with
      | (s, some err) =>
        (writeIndent 1 ++ ("export interface " ++ Title n ++ "Params \x7b\n") ++ s, some err)
      | (s, none) =>
        if (GetTagMembers members headerTagKey).length > 0 then
          match writeTagMembers (.DefineStruct n members d) headerTagKey with
          | (h, some err) =>
            (writeIndent 1 ++ ("export interface " ++ Title n ++ "Params \x7b\n") ++ s ++
              writeIndent 1 ++ "\x7d\n\n" ++
              writeIndent 1 ++ ("export interface " ++ Title n ++ "Headers \x7b\n") ++ h,
              some err)
          | (h, none) =>
            (writeIndent 1 ++ ("export interface " ++ Title n ++ "Params \x7b\n") ++ s ++
              writeIndent 1 ++ "\x7d\n\n" ++
              writeIndent 1 ++ ("export interface " ++ Title n ++ "Headers \x7b\n") ++ h ++
              writeIndent 1 ++ "\x7d\n\n", none)
        else
          (writeIndent 1 ++ ("export interface " ++ Title n ++ "Params \x7b\n") ++ s ++
            writeIndent 1 ++ "\x7d\n\n", none)
  | .NestedStruct n _ _ => ("", some (.new ("no members of type " ++ n)))
  | .PrimitiveType n => ("", some (.new ("no members of type " ++ n)))
  | .MapType n _ _ => ("", some (.new ("no members of type " ++ n)))
  | .ArrayType n _ => ("", some (.new ("no members of type " ++ n)))
  | .InterfaceType n => ("", some (.new ("no members of type " ++ n)))
  | .PointerType n _ => ("", some (.new ("no members of type " ++ n)))

/-- Lines 129-134 of `writeType`: the documentation block, when there is one, and
the opening line of the interface. -/
def writeTypeHead (tp : SpecType) : String :=
  (if tp.Documents.length > 0 then writeIndent 1 ++ (Join tp.Documents "\n" ++ "\n") else "") ++
    writeIndent 1 ++ ("export interface " ++ Title tp.Name ++ " \x7b\n")

/-- `writeType` (generate.go, lines 128-145). -/
def writeType (tp : SpecType) : Written :=
  match writeMembers tp false 2 with
  | (s, some err) => (writeTypeHead tp ++ s, some err)
  | (s, none) =>
    (writeTypeHead tp ++ s ++ writeIndent 2 ++ writeIndent 1 ++ "\x7d\n\n" ++
      (genParamsTypesIfNeed tp).1, (genParamsTypesIfNeed tp).2)

/-- The loop of `BuildTypes` (generate.go, lines 114-123): what has been written to
the builder, and the error the loop stopped with. -/
def buildTypesLoop : Bool → List SpecType → Written
  | _, [] => ("", none)
  | first, tp :: rest =>
    match writeType tp with
    | (s, some err) =>
      ((if first then "" else "\n") ++ s,
        some (.wrap ("Type " ++ tp.Name ++ " generate error: ") err))
    | (s, none) =>
      ((if first then "" else "\n") ++ s ++ (buildTypesLoop false rest).1,
        (buildTypesLoop false rest).2)

/-- `BuildTypes` (generate.go, lines 111-126): the builder's text, or the empty
string together with the error. -/
def BuildTypes (types : List SpecType) : String × Option GoError :=
  match buildTypesLoop true types with
  | (_, some err) => ("", some err)
  | (s, none) => (s, none)

/-! ## Notions of the specification -/

mutual
/-- The Member Classifier of the spec (§4.2): the members of a composite after
every inline member has been expanded transitively, depth-first and
left-to-right; a pointer stands for its referent. -/
def flattenType : SpecType → List Member
  | .DefineStruct _ members _ => flattenMembers members
  | .NestedStruct _ members _ => flattenMembers members
  | .PointerType _ t => flattenType t
  | .PrimitiveType _ => []
  | .MapType _ _ _ => []
  | .ArrayType _ _ => []
  | .InterfaceType _ => []
/-- Inline expansion of a member list (spec §4.2). -/
def flattenMembers : List Member → List Member
  | [] => []
  | (.mk n t ts c d inl) :: rest =>
    (if inl then flattenType t else [.mk n t ts c d inl]) ++ flattenMembers rest
end

/-- The members of a named composite, none for any other type. -/
def membersOf : SpecType → List Member
  | .DefineStruct _ members _ => members
  | _ => []

/-- The main interface block of a composite, up to and including its
closing-brace line. -/
def mainBlock (tp : SpecType) : String :=
  writeTypeHead tp ++ (writeMembers tp false 2).1 ++ writeIndent 2 ++ writeIndent 1 ++ "\x7d\n"

/-- The companion `Params` block of a composite, up to and including its
closing-brace line. -/
def paramsBlock (tp : SpecType) : String :=
  writeIndent 1 ++ ("export interface " ++ Title tp.Name ++ "Params \x7b\n") ++
    (writeTagMembers tp formTagKey).1 ++ writeIndent 1 ++ "\x7d\n"

/-- The companion `Headers` block of a composite, up to and including its
closing-brace line. -/
def headersBlock (tp : SpecType) : String :=
  writeIndent 1 ++ ("export interface " ++ Title tp.Name ++ "Headers \x7b\n") ++
    (writeTagMembers tp headerTagKey).1 ++ writeIndent 1 ++ "\x7d\n"

/-- The interface blocks emitted for a composite, in output order: the main block,
the `Params` block when `GetNonBodyMembers()` is not empty, and then the
`Headers` block when `GetTagMembers("header")` is not empty either. -/
def blocksOf (tp : SpecType) : List String :=
  mainBlock tp ::
    (if (GetNonBodyMembers (membersOf tp)).length = 0 then []
     else paramsBlock tp ::
      (if (GetTagMembers (membersOf tp) headerTagKey).length > 0 then [headersBlock tp]
       else []))

/-- A body-bound, non-inline member without docs or comment whose type is a
scalar kind that `primitiveType` maps. -/
def plainScalar (m : Member) : Bool :=
  !m.IsInline && m.IsBodyMember && m.Docs.isEmpty && (m.GetComment == "") &&
    (match m.Typ with
     | .PrimitiveType k => (primitiveType k).2
     | _ => false)

/-- A non-inline member without docs or comment whose type is a scalar kind that
`primitiveType` maps. -/
def plainField (m : Member) : Bool :=
  !m.IsInline && m.Docs.isEmpty && (m.GetComment == "") &&
    (match m.Typ with
     | .PrimitiveType k => (primitiveType k).2
     | _ => false)

/-- The closed set of scalar kinds of the spec (§4.1): string, the signed and
unsigned integers of width 8, 16, 32 and 64, float32 and float64, boolean, the
raw-byte array and any. -/
def specKinds : List String :=
  ["string", "int8", "int16", "int32", "int64", "uint8", "uint16", "uint32", "uint64",
   "float32", "float64", "bool", "[]byte", "any"]

/-- The scalar kinds `primitiveType` has a case for (generate.go, lines 95-106). -/
def mappedKinds : List String :=
  ["string", "uint64", "int64", "int", "int8", "int16", "int32", "uint", "uint8", "uint16",
   "uint32", "float", "float32", "float64", "bool", "[]byte", "interface\x7b\x7d", "any"]

/-- The trailing comment of a field line (generate.go, lines 224-228): nothing for
an empty comment, otherwise ` // ` and the comment without one leading `//`
and without surrounding white space. -/
def commentSuffix (m : Member) : String :=
  if m.GetComment = "" then "" else " // " ++ TrimSpace (TrimPrefix m.GetComment "//")

/-- Concatenation of a list of texts, in order. -/
def concatAll : List String → String
  | [] => ""
  | s :: rest => s ++ concatAll rest

/-- The lines of a text: the pieces between its newline characters. -/
def linesOf (s : String) : List String := Split s '\n'

/-! ## Examples -/

/-- A body-bound member `name` of scalar kind `kind`, tagged `json:"name"`. -/
def bodyField (name kind : String) : Member :=
  .mk name (.PrimitiveType kind) [⟨"json", name, []⟩] "" [] false

/-- A non-body member `name` of scalar kind `kind`, bound by the tag
`key:"tagName"`. -/
def boundField (name kind key tagName : String) : Member :=
  .mk name (.PrimitiveType kind) [⟨key, tagName, []⟩] "" [] false

/-- An inline (embedded) member of type `t`; an embedded field has no tag. -/
def inlineField (name : String) (t : SpecType) : Member :=
  .mk name t [] "" [] true

/-- Scenario A of the spec: `User` with a 64-bit integer `Id` and a string
`Name`. -/
def userType : SpecType :=
  .DefineStruct "User" [bodyField "Id" "int64", bodyField "Name" "string"] []

/-- A request with a path-bound `Id` and a query-bound `Page`. -/
def pagedRequest : SpecType :=
  .DefineStruct "Req" [boundField "Id" "int64" "path" "id", boundField "Page" "int" "form" "page"] []

/-- A composite holding a single query-bound member. -/
def pageQuery : SpecType :=
  .DefineStruct "PageQuery" [boundField "Page" "int" "form" "page"] []

/-- A composite whose only member embeds `pageQuery`. -/
def listRequest : SpecType :=
  .DefineStruct "ListReq" [inlineField "PageQuery" pageQuery] []

/-- A composite with a query-bound member and an embedded body composite; no
member of it or of the embedded composite is header-bound. -/
def searchRequest : SpecType :=
  .DefineStruct "SearchReq"
    [boundField "Keyword" "string" "form" "keyword", inlineField "User" userType] []

/-- A member whose type is an anonymous struct with one scalar member. -/
def nestedField : Member :=
  .mk "Profile" (.NestedStruct "" [bodyField "Age" "int"] []) [⟨"json", "profile", []⟩] "" [] false

/-- A composite with a nested-struct member. -/
def accountType : SpecType :=
  .DefineStruct "Account" [bodyField "Id" "int64", nestedField] []

/-- A composite with no members. -/
def emptyType : SpecType := .DefineStruct "Empty" [] []

/-- A composite with a member of an unmapped scalar kind. -/
def badType : SpecType :=
  .DefineStruct "Bad" [bodyField "Z" "complex128"] []

/-- A composite that embeds `userType` between two scalar members. -/
def wrapType : SpecType :=
  .DefineStruct "Wrap" ([bodyField "A" "int"] ++ [inlineField "User" userType] ++
    [bodyField "B" "bool"]) []

/-- A string member with the enumeration `A|B`. -/
def enumField : Member :=
  .mk "Status" (.PrimitiveType "string") [⟨"json", "status", ["options=A|B"]⟩] "" [] false

/-- A 64-bit integer member with the enumeration `1|2`. -/
def int64EnumField : Member :=
  .mk "Level" (.PrimitiveType "int64") [⟨"json", "level", ["options=1|2"]⟩] "" [] false

/-- A 32-bit integer member with the enumeration `1|2`. -/
def int32EnumField : Member :=
  .mk "Level" (.PrimitiveType "int32") [⟨"json", "level", ["options=1|2"]⟩] "" [] false

/-- Scenario B of the spec: `Req` with a query-bound integer `Page`. -/
def pageRequest : SpecType :=
  .DefineStruct "Req" [boundField "Page" "int" "form" "Page"] []

/-- A request with a query-bound `Page`, a header-bound `Token` and a body
`Name`. -/
def authRequest : SpecType :=
  .DefineStruct "AuthReq"
    [boundField "Page" "int" "form" "page", boundField "Token" "string" "header" "token",
     bodyField "Name" "string"] []

/-- A member with a trailing comment. -/
def commentedField : Member :=
  .mk "Age" (.PrimitiveType "int") [⟨"json", "age", ["optional"]⟩] "  // years  " [] false

/-! ## Lemmas on texts -/

/-- Concatenation distributes over list append. -/
theorem concatAll_append (xs ys : List String) :
    concatAll (xs ++ ys) = concatAll xs ++ concatAll ys := by
  induction xs with
  | nil => simp [concatAll]
  | cons x xs ih => simp [concatAll, ih, String.append_assoc]

/-- The accumulator loop of `String.intercalate`. -/
theorem intercalate_go (sep : String) (xs : List String) (acc : String) :
    String.intercalate.go acc sep xs = acc ++ concatAll (xs.map (fun x => sep ++ x)) := by
  induction xs generalizing acc with
  | nil => simp [String.intercalate.go, concatAll]
  | cons x xs ih => simp [String.intercalate.go, concatAll, ih, String.append_assoc]

/-- Joining a non-empty list puts the separator in front of every later element. -/
theorem Join_cons (sep x : String) (xs : List String) :
    Join (x :: xs) sep = x ++ concatAll (xs.map (fun y => sep ++ y)) := by
  simp [Join, String.intercalate, intercalate_go]

/-- The block terminator `}\n\n` is the closing-brace line followed by an empty
line. -/
theorem append_nl_nl (s : String) : s ++ "\x7d\n\n" = s ++ "\x7d\n" ++ "\n" := by
  rw [String.append_assoc]; rfl

/-- One tab of indent in front of `export interface`. -/
theorem tab_export (s : String) :
    "\t" ++ ("export interface " ++ s) = "\texport interface " ++ s := by
  rw [← String.append_assoc]; rfl

/-- The message of an error ends with the message of its root. -/
theorem error_ends_with_root (e : GoError) : ∃ a, e.Error = a ++ e.root.Error := by
  induction e with
  | new msg => exact ⟨"", by simp [GoError.Error, GoError.root]⟩
  | wrap pre inner ih =>
    obtain ⟨a, ha⟩ := ih
    exact ⟨pre ++ a, by simp [GoError.Error, GoError.root, ha, String.append_assoc]⟩

/-! ## Lemmas on members -/

/-- A body-bound member that is not inline carries a `json` tag, so it has a
property name. -/
theorem propertyName_ok_of_body (m : Member) (hi : m.IsInline = false)
    (hb : m.IsBodyMember = true) : m.GetPropertyName.2 = none := by
  unfold Member.GetPropertyName
  simp only [Member.IsBodyMember, hi, Bool.false_or, List.any_eq_true] at hb
  obtain ⟨t, ht, hk⟩ := hb
  cases hf : m.Tags.find? (fun t => definedKeys.contains t.Key) with
  | some t0 => simp only; split <;> rfl
  | none =>
    exfalso
    rw [List.find?_eq_none] at hf
    have := hf t ht
    simp only [beq_iff_eq] at hk
    simp [definedKeys, hk] at this

/-- What `plainScalar` says, as propositions. -/
theorem plainScalar_spec (m : Member) (h : plainScalar m = true) :
    m.IsInline = false ∧ m.IsBodyMember = true ∧ m.Docs = [] ∧ m.GetComment = "" ∧
      ∃ k, m.Typ = .PrimitiveType k ∧ (primitiveType k).2 = true := by
  unfold plainScalar at h
  simp only [Bool.and_eq_true, Bool.not_eq_true', List.isEmpty_iff, beq_iff_eq] at h
  obtain ⟨⟨⟨⟨h1, h2⟩, h3⟩, h4⟩, h5⟩ := h
  refine ⟨h1, h2, h3, h4, ?_⟩
  cases ht : m.Typ <;> rw [ht] at h5 <;> simp at h5
  exact ⟨_, rfl, h5⟩

/-- The field line of a plain scalar member. -/
theorem scalar_line (m : Member) (indent : Nat) (h : plainScalar m = true) :
    writePropertyWith (genTsType m indent) m indent =
      (writeIndent indent ++ m.GetPropertyName.1 ++ "?: " ++ (genTsType m indent).1 ++ "\n",
        none) := by
  obtain ⟨hi, hb, hd, hc, k, hk, hp⟩ := plainScalar_spec m h
  have hn := propertyName_ok_of_body m hi hb
  have hg : (genTsType m indent).2 = none := by
    cases m with
    | mk n t ts c d inl =>
      simp only [Member.Typ] at hk
      subst hk
      simp [genTsType, goTypeToTs, hp]
  unfold writePropertyWith
  rcases hgt : genTsType m indent with ⟨ty, _ | e⟩
  · rcases hpn : m.GetPropertyName with ⟨name, _ | e⟩
    · simp only [hc, hd]
      simp [String.append_assoc]
    · rw [hpn] at hn; simp at hn
  · rw [hgt] at hg; simp at hg

/-- The body of a composite whose members are all plain scalars: one field line
per member, in member order. -/
theorem range_of_scalars (owner : String) (indent : Nat) (ms : List Member)
    (h : ∀ m ∈ ms, plainScalar m = true) :
    writeMembersRange owner ms false indent =
      (concatAll (ms.map (fun m =>
        writeIndent indent ++ m.GetPropertyName.1 ++ "?: " ++ (genTsType m indent).1 ++ "\n")),
        none) := by
  induction ms with
  | nil => simp [writeMembersRange, concatAll]
  | cons m rest ih =>
    have hm := h m (List.mem_cons_self _ _)
    have ih2 := ih (fun x hx => h x (List.mem_cons_of_mem _ hx))
    have hl := scalar_line m indent hm
    obtain ⟨hi, hb, _⟩ := plainScalar_spec m hm
    cases m with
    | mk n t ts c d inl =>
      simp only [Member.IsInline] at hi
      subst hi
      simp only [writeMembersRange, inRange, hb, Bool.false_eq_true, if_false, if_true, hl, ih2,
        List.map_cons, concatAll]

/-- A composite of plain scalars has no non-body member. -/
theorem nonBody_of_scalars (ms : List Member) (h : ∀ m ∈ ms, plainScalar m = true) :
    GetNonBodyMembers ms = [] := by
  simp only [GetNonBodyMembers, List.filter_eq_nil_iff]
  intro m hm
  simp [(plainScalar_spec m (h m hm)).2.1]

/-- The loop of `writeMembers` over `xs ++ ys`, when the part over `xs` succeeds,
writes the text for `xs` and goes on with `ys`. -/
theorem range_append (owner : String) (isParam : Bool) (indent : Nat) (xs ys : List Member)
    (h : (writeMembersRange owner xs isParam indent).2 = none) :
    writeMembersRange owner (xs ++ ys) isParam indent =
      ((writeMembersRange owner xs isParam indent).1 ++
        (writeMembersRange owner ys isParam indent).1,
        (writeMembersRange owner ys isParam indent).2) := by
  induction xs with
  | nil => simp [writeMembersRange]
  | cons m rest ih =>
    cases m with
    | mk n t ts c d inl =>
      rw [List.cons_append]
      cases hr : inRange isParam (.mk n t ts c d inl) with
      | true =>
        cases inl with
        | true =>
          simp only [writeMembersRange, hr, if_true] at h ⊢
          rcases hw : writeMembers t isParam indent with ⟨s, _ | e⟩
          · rw [hw] at h
            simp only at h ⊢
            rw [ih h]
            simp [String.append_assoc]
          · rw [hw] at h; simp at h
        | false =>
          simp only [writeMembersRange, hr, if_true, Bool.false_eq_true, if_false] at h ⊢
          rcases hw : writePropertyWith (genTsType (.mk n t ts c d false) indent)
            (.mk n t ts c d false) indent with ⟨s, _ | e⟩
          · rw [hw] at h
            simp only at h ⊢
            rw [ih h]
            simp [String.append_assoc]
          · rw [hw] at h; simp at h
      | false =>
        simp only [writeMembersRange, hr, Bool.false_eq_true, if_false] at h ⊢
        exact ih h

/-- The loop of `writeMembers` over a single inline member writes what
`writeMembers` writes for the member's type. -/
theorem range_inline (owner : String) (indent : Nat) (m : Member) (hi : m.IsInline = true)
    (h : (writeMembers m.Typ false indent).2 = none) :
    writeMembersRange owner [m] false indent = ((writeMembers m.Typ false indent).1, none) := by
  cases m with
  | mk n t ts c d inl =>
    simp only [Member.IsInline] at hi
    subst hi
    simp only [Member.Typ] at h ⊢
    simp only [writeMembersRange]
    rcases hw : writeMembers t false indent with ⟨s, _ | e⟩
    · simp [inRange, Member.IsBodyMember, Member.IsInline, writeMembersRange]
    · rw [hw] at h; simp at h

mutual
/-- Inline expansion leaves no inline member (types). -/
theorem flattenType_not_inline : ∀ (tp : SpecType), ∀ m ∈ flattenType tp, m.IsInline = false
  | .DefineStruct _ ms _ => by simpa only [flattenType] using flattenMembers_not_inline ms
  | .NestedStruct _ ms _ => by simpa only [flattenType] using flattenMembers_not_inline ms
  | .PointerType _ t => by simpa only [flattenType] using flattenType_not_inline t
  | .PrimitiveType _ => by simp [flattenType]
  | .MapType _ _ _ => by simp [flattenType]
  | .ArrayType _ _ => by simp [flattenType]
  | .InterfaceType _ => by simp [flattenType]
/-- Inline expansion leaves no inline member (member lists). -/
theorem flattenMembers_not_inline : ∀ (ms : List Member), ∀ m ∈ flattenMembers ms,
    m.IsInline = false
  | [] => by simp [flattenMembers]
  | (.mk n t ts c d inl) :: rest => by
    intro m hm
    simp only [flattenMembers, List.mem_append] at hm
    rcases hm with hm | hm
    · cases inl with
      | true => exact flattenType_not_inline t m (by simpa using hm)
      | false =>
        simp only [Bool.false_eq_true, if_false, List.mem_singleton] at hm
        rw [hm]; rfl
    · exact flattenMembers_not_inline rest m hm
end

mutual
/-- When `writeTagMembers` succeeds, it writes the field lines of the members
bound to `key` after inline expansion, in order (types). -/
theorem tagMembers_flat : ∀ (tp : SpecType) (key : String),
    (writeTagMembers tp key).2 = none →
    (writeTagMembers tp key).1 =
      concatAll (((flattenType tp).filter (fun m => m.IsTagMember key)).map
        (fun m => (writeProperty m 1).1))
  | .DefineStruct n ms d, key, h => by
    simp only [writeTagMembers, flattenType] at h ⊢
    exact tagMembersRange_flat n ms key h
  | .PointerType _ t, key, h => by
    simp only [writeTagMembers, flattenType] at h ⊢
    exact tagMembers_flat t key h
  | .NestedStruct _ _ _, key, h => by simp [writeTagMembers] at h
  | .PrimitiveType _, key, h => by simp [writeTagMembers] at h
  | .MapType _ _ _, key, h => by simp [writeTagMembers] at h
  | .ArrayType _ _, key, h => by simp [writeTagMembers] at h
  | .InterfaceType _, key, h => by simp [writeTagMembers] at h
/-- When the loop of `writeTagMembers` succeeds, it writes the field lines of the
members bound to `key` after inline expansion, in order (member lists). -/
theorem tagMembersRange_flat : ∀ (owner : String) (ms : List Member) (key : String),
    (writeTagMembersRange owner ms key).2 = none →
    (writeTagMembersRange owner ms key).1 =
      concatAll (((flattenMembers ms).filter (fun m => m.IsTagMember key)).map
        (fun m => (writeProperty m 1).1))
  | _, [], key, h => by simp [writeTagMembersRange, flattenMembers, concatAll]
  | owner, (.mk n t ts c d inl) :: rest, key, h => by
    unfold writeTagMembersRange at h ⊢
    unfold flattenMembers
    by_cases hk : Member.IsTagMember (.mk n t ts c d inl) key = true
    · rw [if_pos hk] at h ⊢
      cases inl with
      | true =>
        simp only [if_true] at h ⊢
        rcases hr : writeTagMembers t key with ⟨s, _ | err⟩
        · rw [hr] at h
          simp only at h ⊢
          have h1 := tagMembers_flat t key (by rw [hr])
          have h2 := tagMembersRange_flat owner rest key h
          rw [hr] at h1
          simp only at h1
          rw [List.filter_append, List.map_append, concatAll_append, ← h1, ← h2]
        · rw [hr] at h
          simp at h
      | false =>
        simp only [Bool.false_eq_true, if_false] at h ⊢
        rcases hr : writeProperty (.mk n t ts c d false) 1 with ⟨s, _ | err⟩
        · rw [hr] at h
          simp only at h ⊢
          have h2 := tagMembersRange_flat owner rest key h
          rw [List.filter_append, List.map_append, concatAll_append, ← h2]
          simp [List.filter, hk, concatAll, hr]
        · rw [hr] at h
          simp at h
    · rw [if_neg hk] at h ⊢
      have h2 := tagMembersRange_flat owner rest key h
      cases inl with
      | true => simp [Member.IsTagMember, Member.IsInline] at hk
      | false =>
        rw [h2]
        simp [List.filter, hk]
end

/-! ## Lemmas on `genParamsTypesIfNeed`, `writeType` and `BuildTypes` -/

/-- The text of a successful `genParamsTypesIfNeed`, block by block. -/
theorem genParams_ok (n : String) (ms : List Member) (d : List String)
    (h : (genParamsTypesIfNeed (.DefineStruct n ms d)).2 = none) :
    (genParamsTypesIfNeed (.DefineStruct n ms d)).1 =
      (if (GetNonBodyMembers ms).length = 0 then ""
       else paramsBlock (.DefineStruct n ms d) ++ "\n" ++
        (if (GetTagMembers ms headerTagKey).length > 0
          then headersBlock (.DefineStruct n ms d) ++ "\n" else "")) ∧
    ((GetNonBodyMembers ms).length ≠ 0 →
      (writeTagMembers (.DefineStruct n ms d) formTagKey).2 = none) := by
  unfold genParamsTypesIfNeed at h ⊢
  by_cases hnb : (GetNonBodyMembers ms).length = 0
  · simp [hnb]
  · simp only [hnb, if_false] at h ⊢
    rcases hf : writeTagMembers (.DefineStruct n ms d) formTagKey with ⟨s, _ | e⟩
    · rw [hf] at h
      simp only at h ⊢
      by_cases hh : (GetTagMembers ms headerTagKey).length > 0
      · simp only [hh, if_true] at h ⊢
        rcases hhd : writeTagMembers (.DefineStruct n ms d) headerTagKey with ⟨s2, _ | e⟩
        · simp only [paramsBlock, headersBlock, hf, hhd, SpecType.Name, append_nl_nl,
            String.append_assoc, not_false_eq_true, implies_true, and_self]
        · rw [hhd] at h; simp at h
      · simp only [hh, if_false] at h ⊢
        simp only [paramsBlock, hf, SpecType.Name, append_nl_nl, String.append_assoc,
          String.append_empty, not_false_eq_true, implies_true, and_self]
    · rw [hf] at h; simp at h

/-- Only a named composite passes `genParamsTypesIfNeed`. -/
theorem genParams_ok_struct (tp : SpecType) (h : (genParamsTypesIfNeed tp).2 = none) :
    ∃ n ms d, tp = .DefineStruct n ms d := by
  cases tp <;> simp [genParamsTypesIfNeed] at h
  exact ⟨_, _, _, rfl⟩

/-- A successful `writeType` wrote the main block, an empty line, and what
`genParamsTypesIfNeed` wrote. -/
theorem writeType_ok (tp : SpecType) (h : (writeType tp).2 = none) :
    (writeMembers tp false 2).2 = none ∧ (genParamsTypesIfNeed tp).2 = none ∧
    (writeType tp).1 = mainBlock tp ++ "\n" ++ (genParamsTypesIfNeed tp).1 := by
  unfold writeType at h ⊢
  rcases hm : writeMembers tp false 2 with ⟨s, _ | e⟩
  · rw [hm] at h
    simp only at h ⊢
    refine ⟨trivial, h, ?_⟩
    simp only [mainBlock, hm, append_nl_nl, String.append_assoc]
  · rw [hm] at h; simp at h

/-- A successful `writeType` wrote the blocks of `blocksOf`, each followed by an
empty line. -/
theorem writeType_blocks (n : String) (ms : List Member) (d : List String)
    (h : (writeType (.DefineStruct n ms d)).2 = none) :
    (writeType (.DefineStruct n ms d)).1 =
      concatAll ((blocksOf (.DefineStruct n ms d)).map (fun b => b ++ "\n")) := by
  obtain ⟨_, hg, ht⟩ := writeType_ok _ h
  rw [ht, (genParams_ok n ms d hg).1]
  unfold blocksOf
  simp only [membersOf]
  by_cases hnb : (GetNonBodyMembers ms).length = 0
  · simp [hnb, concatAll]
  · by_cases hh : (GetTagMembers ms headerTagKey).length > 0
    · simp [hnb, hh, concatAll, String.append_assoc]
    · simp [hnb, hh, concatAll, String.append_assoc]

/-- The opening of the main block starts with a tab. -/
theorem head_shape (tp : SpecType) : ∃ H, writeTypeHead tp = "\t" ++ H := by
  have e1 : writeIndent 1 = "\t" := rfl
  unfold writeTypeHead
  split
  · exact ⟨_, by rw [e1, String.append_assoc, String.append_assoc]⟩
  · exact ⟨_, by rw [e1, String.empty_append]⟩

/-- Every block starts with a tab and ends with its closing-brace line. -/
theorem block_shape (tp : SpecType) :
    ∀ b ∈ blocksOf tp, ∃ body, b = "\t" ++ body ++ "\x7d\n" := by
  have e1 : writeIndent 1 = "\t" := rfl
  intro b hb
  simp only [blocksOf, List.mem_cons] at hb
  rcases hb with hb | hb
  · subst hb
    obtain ⟨H, hH⟩ := head_shape tp
    exact ⟨H ++ (writeMembers tp false 2).1 ++ writeIndent 2 ++ writeIndent 1, by
      simp only [mainBlock, hH, String.append_assoc]⟩
  · split at hb
    · simp at hb
    · simp only [List.mem_cons] at hb
      rcases hb with hb | hb
      · subst hb
        exact ⟨("export interface " ++ Title tp.Name ++ "Params \x7b\n") ++
          (writeTagMembers tp formTagKey).1 ++ writeIndent 1, by
          simp only [paramsBlock, e1, String.append_assoc]⟩
      · split at hb
        · simp only [List.mem_singleton] at hb
          subst hb
          exact ⟨("export interface " ++ Title tp.Name ++ "Headers \x7b\n") ++
            (writeTagMembers tp headerTagKey).1 ++ writeIndent 1, by
            simp only [headersBlock, e1, String.append_assoc]⟩
        · simp at hb

/-- When every composite renders, the loop of `BuildTypes` wrote the texts of the
composites with a newline between consecutive ones. -/
theorem loop_ok (first : Bool) (types : List SpecType)
    (h : ∀ tp ∈ types, (writeType tp).2 = none) :
    buildTypesLoop first types =
      ((if first then Join (types.map (fun tp => (writeType tp).1)) "\n"
        else concatAll (types.map (fun tp => "\n" ++ (writeType tp).1))), none) := by
  induction types generalizing first with
  | nil => cases first <;> simp [buildTypesLoop, Join, String.intercalate, concatAll]
  | cons tp rest ih =>
    have h1 := h tp (List.mem_cons_self _ _)
    have ih2 := ih false (fun x hx => h x (List.mem_cons_of_mem _ hx))
    unfold buildTypesLoop
    rcases hw : writeType tp with ⟨s, _ | e⟩
    · simp only [ih2, List.map_cons, Join_cons, hw]
      cases first <;> simp [concatAll, String.append_assoc, Function.comp_def]
    · rw [hw] at h1; simp at h1

/-- An error of the loop of `BuildTypes` wraps the error of the first composite
that fails to render. -/
theorem loop_err (first : Bool) (types : List SpecType) (e : GoError)
    (h : (buildTypesLoop first types).2 = some e) :
    ∃ pre tp post inner, types = pre ++ tp :: post ∧
      (∀ t ∈ pre, (writeType t).2 = none) ∧ (writeType tp).2 = some inner ∧
      e = .wrap ("Type " ++ tp.Name ++ " generate error: ") inner := by
  induction types generalizing first with
  | nil => simp [buildTypesLoop] at h
  | cons tp rest ih =>
    unfold buildTypesLoop at h
    rcases hw : writeType tp with ⟨s, _ | e2⟩
    · rw [hw] at h
      simp only at h
      obtain ⟨pre, tp2, post, inner, h1, h2, h3, h4⟩ := ih false h
      refine ⟨tp :: pre, tp2, post, inner, by simp [h1], ?_, h3, h4⟩
      intro t ht
      rcases List.mem_cons.mp ht with rfl | ht
      · rw [hw]
      · exact h2 t ht
    · rw [hw] at h
      simp only [Option.some.injEq] at h
      exact ⟨[], tp, rest, e2, rfl, by simp, by rw [hw], h.symm⟩

/-- The loop of `BuildTypes` ends without error only when every composite
rendered. -/
theorem loop_none (first : Bool) (types : List SpecType)
    (h : (buildTypesLoop first types).2 = none) : ∀ tp ∈ types, (writeType tp).2 = none := by
  induction types generalizing first with
  | nil => simp
  | cons tp rest ih =>
    unfold buildTypesLoop at h
    rcases hw : writeType tp with ⟨s, _ | e2⟩
    · rw [hw] at h
      simp only at h
      intro t ht
      rcases List.mem_cons.mp ht with rfl | ht
      · rw [hw]
      · exact ih false h t ht
    · rw [hw] at h; simp at h

/-- The error of `BuildTypes` is the error of its loop. -/
theorem BuildTypes_err (types : List SpecType) :
    (BuildTypes types).2 = (buildTypesLoop true types).2 := by
  unfold BuildTypes
  rcases buildTypesLoop true types with ⟨s, _ | e⟩ <;> rfl

/-- With an error, `BuildTypes` returns the empty string. -/
theorem BuildTypes_text_err (types : List SpecType) (h : (BuildTypes types).2 ≠ none) :
    (BuildTypes types).1 = "" := by
  unfold BuildTypes at h ⊢
  generalize buildTypesLoop true types = r at h ⊢
  rcases r with ⟨s, _ | e⟩
  · simp at h
  · rfl

/-- When every composite renders, `BuildTypes` returns their texts joined by a
newline. -/
theorem BuildTypes_ok (types : List SpecType) (h : ∀ tp ∈ types, (writeType tp).2 = none) :
    BuildTypes types = (Join (types.map (fun tp => (writeType tp).1)) "\n", none) := by
  unfold BuildTypes
  rw [loop_ok true types h]
  rfl

/-! ## Lemmas for field lines, enumerations and pointers -/

/-- A non-inline member bound to one of the binding keys has a property name. -/
theorem propertyName_ok_of_tag (m : Member) (key : String) (hi : m.IsInline = false)
    (hb : m.IsTagMember key = true) (hk : key ∈ definedKeys) : m.GetPropertyName.2 = none := by
  unfold Member.GetPropertyName
  simp only [Member.IsTagMember, hi, Bool.false_or, List.any_eq_true] at hb
  obtain ⟨t, ht, hkey⟩ := hb
  cases hf : m.Tags.find? (fun t => definedKeys.contains t.Key) with
  | some t0 => simp only; split <;> rfl
  | none =>
    exfalso
    rw [List.find?_eq_none] at hf
    have := hf t ht
    simp only [beq_iff_eq] at hkey
    rw [hkey] at this
    simp [hk] at this

/-- What `plainField` says, as propositions. -/
theorem plainField_spec (m : Member) (h : plainField m = true) :
    m.IsInline = false ∧ m.Docs = [] ∧ m.GetComment = "" ∧
      ∃ k, m.Typ = .PrimitiveType k ∧ (primitiveType k).2 = true := by
  unfold plainField at h
  simp only [Bool.and_eq_true, Bool.not_eq_true', List.isEmpty_iff, beq_iff_eq] at h
  obtain ⟨⟨⟨h1, h2⟩, h3⟩, h4⟩ := h
  refine ⟨h1, h2, h3, ?_⟩
  cases ht : m.Typ <;> rw [ht] at h4 <;> simp at h4
  exact ⟨_, rfl, h4⟩

/-- The field line of a plain field bound to `key`. -/
theorem field_line (m : Member) (key : String) (indent : Nat) (h : plainField m = true)
    (ht : m.IsTagMember key = true) (hk : key ∈ definedKeys) :
    writeProperty m indent =
      (writeIndent indent ++ m.GetPropertyName.1 ++ "?: " ++ (genTsType m indent).1 ++ "\n",
        none) := by
  obtain ⟨hi, hd, hc, k, hty, hp⟩ := plainField_spec m h
  have hn := propertyName_ok_of_tag m key hi ht hk
  have hg : (genTsType m indent).2 = none := by
    cases m with
    | mk n t ts c d inl =>
      simp only [Member.Typ] at hty
      subst hty
      simp [genTsType, goTypeToTs, hp]
  unfold writeProperty writePropertyWith
  rcases hgt : genTsType m indent with ⟨ty, _ | e⟩
  · rcases hpn : m.GetPropertyName with ⟨name, _ | e⟩
    · simp only [hc, hd]
      simp [String.append_assoc]
    · rw [hpn] at hn; simp at hn
  · rw [hgt] at hg; simp at hg

/-- The loop of `writeTagMembers` over declared members whose `key`-bound ones are
plain fields: one field line per such member, in member order. -/
theorem tagRange_of_fields (owner key : String) (hk : key ∈ definedKeys) (ms : List Member)
    (h : ∀ m ∈ ms, m.IsTagMember key = true → plainField m = true) :
    writeTagMembersRange owner ms key =
      (concatAll ((GetTagMembers ms key).map (fun m =>
        writeIndent 1 ++ m.GetPropertyName.1 ++ "?: " ++ (genTsType m 1).1 ++ "\n")), none) := by
  induction ms with
  | nil => simp [writeTagMembersRange, concatAll, GetTagMembers]
  | cons m rest ih =>
    have ih2 := ih (fun x hx => h x (List.mem_cons_of_mem _ hx))
    cases ht : m.IsTagMember key with
    | true =>
      have hm := h m (List.mem_cons_self _ _) ht
      have hl := field_line m key 1 hm ht hk
      obtain ⟨hi, _⟩ := plainField_spec m hm
      cases m with
      | mk n t ts c d inl =>
        simp only [Member.IsInline] at hi
        subst hi
        simp only [writeTagMembersRange, ht, Bool.false_eq_true, if_false, if_true, hl, ih2,
          GetTagMembers, List.filter_cons, List.map_cons, concatAll]
    | false =>
      cases m with
      | mk n t ts c d inl =>
        simp only [writeTagMembersRange, ht, Bool.false_eq_true, if_false, ih2,
          GetTagMembers, List.filter_cons]

/-- When the `form` members render, `genParamsTypesIfNeed` wrote the `Params` block
and an empty line first. -/
theorem genParams_form_text (n : String) (ms : List Member) (d : List String)
    (hnb : (GetNonBodyMembers ms).length ≠ 0)
    (hf : (writeTagMembers (.DefineStruct n ms d) formTagKey).2 = none) :
    ∃ rest, (genParamsTypesIfNeed (.DefineStruct n ms d)).1 =
      paramsBlock (.DefineStruct n ms d) ++ "\n" ++ rest := by
  unfold genParamsTypesIfNeed
  simp only [hnb, if_false]
  rcases hfm : writeTagMembers (.DefineStruct n ms d) formTagKey with ⟨s, _ | e⟩
  · simp only
    by_cases hh : (GetTagMembers ms headerTagKey).length > 0
    · simp only [hh, if_true]
      rcases writeTagMembers (.DefineStruct n ms d) headerTagKey with ⟨s2, _ | e⟩
      · exact ⟨_, by
          simp only [paramsBlock, hfm, SpecType.Name, append_nl_nl, String.append_assoc]
          rfl⟩
      · exact ⟨_, by
          simp only [paramsBlock, hfm, SpecType.Name, append_nl_nl, String.append_assoc]
          rfl⟩
    · simp only [hh, if_false]
      exact ⟨"", by
        simp only [paramsBlock, hfm, SpecType.Name, append_nl_nl, String.append_assoc,
          String.append_empty]⟩
  · rw [hfm] at hf; simp at hf

/-- A successful `genParamsTypesIfNeed` that emits a `Headers` block rendered the
`header` members. -/
theorem genParams_ok_header (n : String) (ms : List Member) (d : List String)
    (h : (genParamsTypesIfNeed (.DefineStruct n ms d)).2 = none)
    (hnb : (GetNonBodyMembers ms).length ≠ 0)
    (hh : (GetTagMembers ms headerTagKey).length > 0) :
    (writeTagMembers (.DefineStruct n ms d) headerTagKey).2 = none := by
  unfold genParamsTypesIfNeed at h
  simp only [hnb, if_false] at h
  rcases hf : writeTagMembers (.DefineStruct n ms d) formTagKey with ⟨s, _ | e⟩
  · rw [hf] at h
    simp only [hh, if_true] at h
    rcases hhd : writeTagMembers (.DefineStruct n ms d) headerTagKey with ⟨s2, _ | e⟩
    · rfl
    · rw [hhd] at h; simp at h
  · rw [hf] at h; simp at h

/-- For a member whose type is not a nested struct, `genTsType` is `goTypeToTs` with
the enum override. -/
theorem genTsType_not_nested (n c : String) (t : SpecType) (ts : List Tag) (d : List String)
    (inl : Bool) (indent : Nat) (h : ∀ rn ms ds, t ≠ .NestedStruct rn ms ds) :
    genTsType (.mk n t ts c d inl) indent =
      (enumOverride (goTypeToTs t false).1 (Member.GetEnumOptions (.mk n t ts c d inl)),
        (goTypeToTs t false).2) := by
  cases t with
  | NestedStruct rn ms ds => exact absurd rfl (h rn ms ds)
  | _ => simp [genTsType]

/-- The field line `writeProperty` writes for a member without docs. -/
theorem writeProperty_line (m : Member) (indent : Nat) (t name : String)
    (hg : genTsType m indent = (t, none)) (hn : m.GetPropertyName = (name, none))
    (hd : m.Docs = []) :
    writeProperty m indent =
      (writeIndent indent ++ (name ++ "?: " ++ t ++ commentSuffix m ++ "\n"), none) := by
  unfold writeProperty writePropertyWith commentSuffix
  rw [hg]
  simp only [hn, hd, List.length_nil, gt_iff_lt, lt_self_iff_false, if_false]
  by_cases hc : m.GetComment = ""
  · simp [hc, String.append_assoc]
  · have hl : m.GetComment.length > 0 := by
      rcases h : m.GetComment with ⟨l⟩
      cases l with
      | nil => exact absurd h hc
      | cons a l => simp [String.length]
    simp [hc, hl, String.append_assoc]

/-- A field of pointer type and a field of the referent type write the same text
and fail together. -/
theorem pointer_line_text (r n c : String) (t : SpecType) (ts : List Tag) (d : List String)
    (inl : Bool) (indent : Nat) :
    (writeProperty (.mk n (.PointerType r t) ts c d inl) indent).1 =
      (writeProperty (.mk n t ts c d inl) indent).1 ∧
    ((writeProperty (.mk n (.PointerType r t) ts c d inl) indent).2 = none ↔
      (writeProperty (.mk n t ts c d inl) indent).2 = none) := by
  cases t with
  | NestedStruct rn ms ds =>
    simp [writeProperty, genTsType, goTypeToTs, writeMembers, writePropertyWith]
  | _ =>
    simp only [writeProperty, genTsType, goTypeToTs]
    exact ⟨rfl, Iff.rfl⟩

/-- Joining two non-empty lists puts one separator between the two joined texts. -/
theorem Join_append (xs ys : List String) (sep : String) (hx : xs ≠ []) (hy : ys ≠ []) :
    Join (xs ++ ys) sep = Join xs sep ++ sep ++ Join ys sep := by
  obtain ⟨x, xs, rfl⟩ := List.exists_cons_of_ne_nil hx
  obtain ⟨y, ys, rfl⟩ := List.exists_cons_of_ne_nil hy
  rw [List.cons_append, Join_cons, Join_cons, Join_cons, List.map_append, concatAll_append]
  simp [concatAll, String.append_assoc]

/-! ## The claims -/

/-- C1: for the scalar kinds `int64` and `uint64`, `primitiveType` returns
`("string", true)` and `goTypeToTs` on a primitive of either kind returns the
output type `string` without error, whatever `fromPacket` is; neither kind
renders as `number`. -/
theorem primitive_int64_is_string (fromPacket : Bool) :
    primitiveType "int64" = ("string", true) ∧
    primitiveType "uint64" = ("string", true) ∧
    goTypeToTs (.PrimitiveType "int64") fromPacket = ("string", none) ∧
    goTypeToTs (.PrimitiveType "uint64") fromPacket = ("string", none) ∧
    (goTypeToTs (.PrimitiveType "int64") fromPacket).1 ≠ "number" ∧
    (goTypeToTs (.PrimitiveType "uint64") fromPacket).1 ≠ "number" := by
  cases fromPacket <;> decide

/-- C2, as stated, fails: for `User` with a 64-bit integer `Id` and a string `Name`,
`BuildTypes` returns the interface line behind one tab, the field lines behind
two tabs and the closing brace behind tabs, and the text of the claim
`export interface User {\n\tId?: string\n\tName?: string\n}` occurs nowhere in
it. -/
theorem scenarioA_block_is_indented :
    BuildTypes [userType] =
      ("\texport interface User \x7b\n\t\tId?: string\n\t\tName?: string\n\t\t\t\x7d\n\n", none) ∧
    ¬ ("export interface User \x7b\n\tId?: string\n\tName?: string\n\x7d").data <:+:
        (BuildTypes [userType]).1.data := by
  decide

/-- C2, amended: for a named composite without docs whose members are all
body-bound, non-inline, doc-free, comment-free mapped scalars, `writeType`
succeeds and writes the line `\texport interface <Capitalized name> {`, then
one line `\t\t<name>?: <type>` per member in member order, then a closing line
made of tabs and `}`, then an empty line; `BuildTypes` on that composite alone
returns the same text. -/
theorem scalar_interface_block (name : String) (members : List Member)
    (h : ∀ m ∈ members, plainScalar m = true) :
    ∃ pad : Nat,
      writeType (.DefineStruct name members []) =
        ("\texport interface " ++ Title name ++ " \x7b\n" ++
          concatAll (members.map (fun m =>
            "\t\t" ++ m.GetPropertyName.1 ++ "?: " ++ (genTsType m 2).1 ++ "\n")) ++
          writeIndent pad ++ "\x7d\n\n", none) ∧
      BuildTypes [.DefineStruct name members []] = writeType (.DefineStruct name members []) := by
  have hw : writeType (.DefineStruct name members []) =
      ("\texport interface " ++ Title name ++ " \x7b\n" ++
          concatAll (members.map (fun m =>
            "\t\t" ++ m.GetPropertyName.1 ++ "?: " ++ (genTsType m 2).1 ++ "\n")) ++
          writeIndent 3 ++ "\x7d\n\n", none) := by
    unfold writeType
    have hr := range_of_scalars name 2 members h
    have hnb := nonBody_of_scalars members h
    simp only [writeMembers, hr, genParamsTypesIfNeed, hnb, List.length_nil, if_true,
      writeTypeHead, SpecType.Documents, SpecType.Name, gt_iff_lt, lt_self_iff_false, if_false]
    have e1 : writeIndent 1 = "\t" := rfl
    have e2 : writeIndent 2 = "\t\t" := rfl
    have e5 : ∀ s : String, "\t\t" ++ ("\t" ++ s) = writeIndent 3 ++ s :=
      fun s => by rw [← String.append_assoc]; rfl
    simp only [e1, e2, String.append_assoc, String.append_empty, String.empty_append,
      tab_export, e5]
  refine ⟨3, hw, ?_⟩
  have hb := BuildTypes_ok [.DefineStruct name members []] (by
    intro tp htp
    rw [List.mem_singleton.mp htp, hw])
  rw [hb]
  simp [Join, String.intercalate, String.intercalate.go, hw]

/-- C2, amended, at Scenario A. -/
theorem scalar_interface_block_witness :
    (∀ m ∈ [bodyField "Id" "int64", bodyField "Name" "string"], plainScalar m = true) ∧
    ∃ pad : Nat,
      writeType userType =
        ("\texport interface " ++ Title "User" ++ " \x7b\n" ++
          concatAll ([bodyField "Id" "int64", bodyField "Name" "string"].map (fun m =>
            "\t\t" ++ m.GetPropertyName.1 ++ "?: " ++ (genTsType m 2).1 ++ "\n")) ++
          writeIndent pad ++ "\x7d\n\n", none) ∧
      BuildTypes [userType] = writeType userType :=
  ⟨by decide, scalar_interface_block "User" _ (by decide)⟩

/-- C3, as stated, fails: `Req` has a path-bound `Id` and a query-bound `Page`, both
non-body members; the `Params` interface that `genParamsTypesIfNeed` emits holds
the line of `Page` only, and the field line of `Id` occurs nowhere in it. -/
theorem params_omit_path_member :
    genParamsTypesIfNeed pagedRequest =
      ("\texport interface ReqParams \x7b\n\tpage?: number\n\t\x7d\n\n", none) ∧
    (GetNonBodyMembers (membersOf pagedRequest)).map Member.Name = ["Id", "Page"] ∧
    ((membersOf pagedRequest).filter (fun m => m.IsTagMember pathTagKey)).map Member.Name
      = ["Id"] ∧
    writeProperty (boundField "Id" "int64" "path" "id") 1 = ("\tid?: string\n", none) ∧
    ¬ ("id?: string").data <:+: (genParamsTypesIfNeed pagedRequest).1.data := by
  decide

/-- C3, amended: for a named composite with at least one non-body member on which
`genParamsTypesIfNeed` succeeds, the emitted `Params` interface is its opening
line, then exactly the field lines (`writeProperty` at indent 1) of the members
that `GetTagMembers("form")` selects after inline expansion, in member order,
then its closing line; the expanded members are never inline, so the selected
ones are those carrying a `form` tag, and a member bound to path, header or
body only has no line in it. -/
theorem params_fields_are_form_members (n : String) (ms : List Member) (d : List String)
    (hnb : (GetNonBodyMembers ms).length ≠ 0)
    (hok : (genParamsTypesIfNeed (.DefineStruct n ms d)).2 = none) :
    (∃ rest, (genParamsTypesIfNeed (.DefineStruct n ms d)).1 =
      "\texport interface " ++ Title n ++ "Params \x7b\n" ++
      concatAll (((flattenType (.DefineStruct n ms d)).filter
        (fun m => m.IsTagMember formTagKey)).map (fun m => (writeProperty m 1).1)) ++
      "\t\x7d\n\n" ++ rest) ∧
    ∀ m ∈ flattenType (.DefineStruct n ms d), m.IsInline = false := by
  refine ⟨?_, flattenType_not_inline _⟩
  obtain ⟨ht, hf⟩ := genParams_ok n ms d hok
  have hflat := tagMembers_flat _ formTagKey (hf hnb)
  rw [ht, if_neg hnb]
  refine ⟨(if (GetTagMembers ms headerTagKey).length > 0
          then headersBlock (.DefineStruct n ms d) ++ "\n" else ""), ?_⟩
  have e1 : writeIndent 1 = "\t" := rfl
  simp only [paramsBlock, hflat, SpecType.Name, e1, String.append_assoc, tab_export]
  rfl

/-- C3, amended, at the request with a path-bound and a query-bound member. -/
theorem params_fields_are_form_members_witness :
    (GetNonBodyMembers (membersOf pagedRequest)).length ≠ 0 ∧
    (genParamsTypesIfNeed pagedRequest).2 = none ∧
    (∃ rest, (genParamsTypesIfNeed pagedRequest).1 =
      "\texport interface " ++ Title "Req" ++ "Params \x7b\n" ++
      concatAll (((flattenType pagedRequest).filter
        (fun m => m.IsTagMember formTagKey)).map (fun m => (writeProperty m 1).1)) ++
      "\t\x7d\n\n" ++ rest) ∧
    ∀ m ∈ flattenType pagedRequest, m.IsInline = false :=
  ⟨by decide, by decide,
    params_fields_are_form_members "Req" (membersOf pagedRequest) [] (by decide) (by decide)⟩

/-- C4, as stated, fails.  `ListReq` embeds a composite with a query-bound member:
after inline expansion it has a non-body member, and `writeType` succeeds and
emits the main interface only.  `SearchReq` has a query-bound member and embeds
a body composite: after inline expansion no member is header-bound, and
`writeType` emits a `Headers` interface. -/
theorem params_gate_ignores_inline :
    writeType listRequest = ("\texport interface ListReq \x7b\n\t\t\t\x7d\n\n", none) ∧
    ((flattenType listRequest).filter (fun m => !m.IsBodyMember)).map Member.Name = ["Page"] ∧
    writeType searchRequest =
      ("\texport interface SearchReq \x7b\n\t\tId?: string\n\t\tName?: string\n\t\t\t\x7d\n\n" ++
       "\texport interface SearchReqParams \x7b\n\tkeyword?: string\n\t\x7d\n\n" ++
       "\texport interface SearchReqHeaders \x7b\n\t\x7d\n\n", none) ∧
    (flattenType searchRequest).map Member.Name = ["Keyword", "Id", "Name"] ∧
    (flattenType searchRequest).all (fun m => !m.IsTagMember headerTagKey) = true := by
  refine ⟨by decide, by decide, ?_, by decide, by decide⟩
  rfl

/-- C4, amended: for a named composite that renders successfully, with its members
taken as declared (an inline member is not expanded and counts as body-bound):
`writeType` writes the main block, then exactly one `Params` block when
`GetNonBodyMembers()` is not empty and no companion at all when it is empty,
and after the `Params` block a `Headers` block exactly when
`GetTagMembers("header")` is not empty. -/
theorem companions_by_declared_members (n : String) (ms : List Member) (d : List String)
    (h : (writeType (.DefineStruct n ms d)).2 = none) :
    (writeType (.DefineStruct n ms d)).1 =
      mainBlock (.DefineStruct n ms d) ++ "\n" ++
      (if (GetNonBodyMembers ms).length = 0 then ""
       else paramsBlock (.DefineStruct n ms d) ++ "\n" ++
        (if (GetTagMembers ms headerTagKey).length > 0
          then headersBlock (.DefineStruct n ms d) ++ "\n" else "")) := by
  obtain ⟨_, hg, ht⟩ := writeType_ok _ h
  rw [ht, (genParams_ok n ms d hg).1]

/-- C4, amended, at the request with a path-bound and a query-bound member. -/
theorem companions_by_declared_members_witness :
    (writeType pagedRequest).2 = none ∧
    (writeType pagedRequest).1 =
      mainBlock pagedRequest ++ "\n" ++
      (if (GetNonBodyMembers (membersOf pagedRequest)).length = 0 then ""
       else paramsBlock pagedRequest ++ "\n" ++
        (if (GetTagMembers (membersOf pagedRequest) headerTagKey).length > 0
          then headersBlock pagedRequest ++ "\n" else "")) :=
  ⟨by decide, companions_by_declared_members "Req" (membersOf pagedRequest) [] (by decide)⟩

/-- C5: the code fails where the claim says it succeeds.  For every member whose
type is a nested struct, `genTsType` returns the error `type <name> not
supported` and no object literal, whatever the nested members are; so a
composite with such a member fails to render. -/
theorem nested_struct_member_fails (n rn c : String) (ms : List Member) (ds d : List String)
    (ts : List Tag) (inl : Bool) (indent : Nat) :
    genTsType (.mk n (.NestedStruct rn ms ds) ts c d inl) indent =
      ("", some (.new ("type " ++ rn ++ " not supported"))) ∧
    genTsType nestedField 2 = ("", some (.new "type  not supported")) ∧
    BuildTypes [accountType] =
      ("", some (.wrap "Type Account generate error: "
        (.wrap "Type Account generate error: " (.new "type  not supported")))) := by
  refine ⟨by simp [genTsType, writeMembers], by decide, by decide⟩

/-- C6, as stated, fails: in the text `BuildTypes` returns for two composites, the
closing-brace line of the first and the opening line of the second have two
empty lines between them. -/
theorem two_blank_lines_between_composites :
    BuildTypes [userType, emptyType] =
      ("\texport interface User \x7b\n\t\tId?: string\n\t\tName?: string\n\t\t\t\x7d\n\n\n" ++
       "\texport interface Empty \x7b\n\t\t\t\x7d\n\n", none) ∧
    linesOf (BuildTypes [userType, emptyType]).1 =
      ["\texport interface User \x7b", "\t\tId?: string", "\t\tName?: string", "\t\t\t\x7d",
       "", "", "\texport interface Empty \x7b", "\t\t\t\x7d", "", ""] := by
  decide

/-- C6, amended: when `BuildTypes` succeeds, its text is, composite by composite in
input order, the blocks of the composite (main, then `Params`, then `Headers`)
each followed by one empty line, with one more newline between consecutive
composites; every block starts with a tab and ends with its closing-brace
line.  So a block and the next block of the same composite are separated by
exactly one empty line, and the last block of a composite and the first block
of the next composite by exactly two. -/
theorem blocks_separation (types : List SpecType) (out : String)
    (h : BuildTypes types = (out, none)) :
    out = Join (types.map (fun tp => concatAll ((blocksOf tp).map (fun b => b ++ "\n")))) "\n" ∧
    ∀ tp ∈ types, ∀ b ∈ blocksOf tp, ∃ body, b = "\t" ++ body ++ "\x7d\n" := by
  refine ⟨?_, fun tp _ => block_shape tp⟩
  have hn : (BuildTypes types).2 = none := by rw [h]
  rw [BuildTypes_err] at hn
  have hall := loop_none true types hn
  have hb := BuildTypes_ok types hall
  rw [h] at hb
  have := congrArg Prod.fst hb
  simp only at this
  rw [this]
  congr 1
  apply List.map_congr_left
  intro tp htp
  obtain ⟨_, hg, _⟩ := writeType_ok tp (hall tp htp)
  obtain ⟨n, ms, d, rfl⟩ := genParams_ok_struct tp hg
  exact writeType_blocks n ms d (hall _ htp)

/-- C6, amended, at a request with a `Params` companion followed by `User`. -/
theorem blocks_separation_witness :
    BuildTypes [pagedRequest, userType] =
      ("\texport interface Req \x7b\n\t\t\t\x7d\n\n" ++
       "\texport interface ReqParams \x7b\n\tpage?: number\n\t\x7d\n\n\n" ++
       "\texport interface User \x7b\n\t\tId?: string\n\t\tName?: string\n\t\t\t\x7d\n\n", none) ∧
    ("\texport interface Req \x7b\n\t\t\t\x7d\n\n" ++
       "\texport interface ReqParams \x7b\n\tpage?: number\n\t\x7d\n\n\n" ++
       "\texport interface User \x7b\n\t\tId?: string\n\t\tName?: string\n\t\t\t\x7d\n\n") =
      Join ([pagedRequest, userType].map
        (fun tp => concatAll ((blocksOf tp).map (fun b => b ++ "\n")))) "\n" ∧
    ∀ tp ∈ [pagedRequest, userType], ∀ b ∈ blocksOf tp, ∃ body, b = "\t" ++ body ++ "\x7d\n" :=
  ⟨by rfl, blocks_separation [pagedRequest, userType] _ (by rfl)⟩

/-- C7: if the rendering (`writeType`) of any composite of the list fails,
`BuildTypes` returns the empty string together with an error; and when
`BuildTypes` returns no error, every composite of the list rendered
successfully. -/
theorem buildTypes_all_or_nothing (types : List SpecType) :
    ((∃ tp ∈ types, (writeType tp).2 ≠ none) →
      (BuildTypes types).1 = "" ∧ (BuildTypes types).2 ≠ none) ∧
    ((BuildTypes types).2 = none → ∀ tp ∈ types, (writeType tp).2 = none) := by
  have hn : (BuildTypes types).2 = none → ∀ tp ∈ types, (writeType tp).2 = none := by
    intro h
    rw [BuildTypes_err] at h
    exact loop_none true types h
  refine ⟨?_, hn⟩
  rintro ⟨tp, htp, hbad⟩
  have hne : (BuildTypes types).2 ≠ none := fun h => hbad (hn h tp htp)
  exact ⟨BuildTypes_text_err types hne, hne⟩

/-- C7 at a list whose second composite fails: nothing of the first one is
returned. -/
theorem buildTypes_all_or_nothing_witness :
    (∃ tp ∈ [userType, badType], (writeType tp).2 ≠ none) ∧
    (BuildTypes [userType, badType]).1 = "" ∧ (BuildTypes [userType, badType]).2 ≠ none :=
  ⟨⟨badType, by simp, by decide⟩,
    (buildTypes_all_or_nothing [userType, badType]).1 ⟨badType, by simp, by decide⟩⟩

/-- C8: an error `e` returned by `BuildTypes` comes from the first composite `tp` in
input order whose rendering fails, and its message is `Type <tp.Name> generate
error: ` followed by the message of that composite's error.  When the root of
the error chain is the failure on an unmapped scalar kind `k` (`unsupported
primitive type k`) or on an unsupported shape named `k` (`unsupported type k`,
`type k not supported`), the message contains `k`; and an unmapped scalar kind
`k` makes `goTypeToTs` fail with exactly that root. -/
theorem buildTypes_error_names_composite (types : List SpecType) (e : GoError)
    (h : (BuildTypes types).2 = some e) :
    (∃ pre tp post inner, types = pre ++ tp :: post ∧
      (∀ t ∈ pre, (writeType t).2 = none) ∧ (writeType tp).2 = some inner ∧
      e.Error = "Type " ++ tp.Name ++ " generate error: " ++ inner.Error) ∧
    (∀ k : String,
      (e.root = .new ("unsupported primitive type " ++ k) ∨
        e.root = .new ("unsupported type " ++ k) ∨
        e.root = .new ("type " ++ k ++ " not supported")) →
      ∃ a b, e.Error = a ++ k ++ b) ∧
    (∀ (k : String) (fromPacket : Bool), (primitiveType k).2 = false →
      goTypeToTs (.PrimitiveType k) fromPacket =
        ("", some (.new ("unsupported primitive type " ++ k)))) := by
  rw [BuildTypes_err] at h
  obtain ⟨pre, tp, post, inner, h1, h2, h3, h4⟩ := loop_err true types e h
  refine ⟨⟨pre, tp, post, inner, h1, h2, h3, by rw [h4]; rfl⟩, ?_, ?_⟩
  · intro k hk
    obtain ⟨a, ha⟩ := error_ends_with_root e
    rcases hk with hk | hk | hk
    · exact ⟨a ++ "unsupported primitive type ", "", by
        rw [ha, hk]; simp [GoError.Error, String.append_assoc]⟩
    · exact ⟨a ++ "unsupported type ", "", by
        rw [ha, hk]; simp [GoError.Error, String.append_assoc]⟩
    · exact ⟨a ++ "type ", " not supported", by
        rw [ha, hk]; simp [GoError.Error, String.append_assoc]⟩
  · intro k fromPacket hk
    simp [goTypeToTs, hk]

/-- C8 at a list whose second composite has a member of the unmapped kind
`complex128`. -/
theorem buildTypes_error_names_composite_witness :
    (BuildTypes [userType, badType, accountType]).2 =
      some (.wrap "Type Bad generate error: " (.wrap "Type Bad generate error: "
        (.new "unsupported primitive type complex128"))) ∧
    GoError.Error (.wrap "Type Bad generate error: " (.wrap "Type Bad generate error: "
        (.new "unsupported primitive type complex128"))) =
      "Type Bad generate error: Type Bad generate error: unsupported primitive type complex128" ∧
    ∃ a b, GoError.Error (.wrap "Type Bad generate error: " (.wrap "Type Bad generate error: "
        (.new "unsupported primitive type complex128"))) = a ++ "complex128" ++ b :=
  ⟨by decide, by decide,
    (buildTypes_error_names_composite [userType, badType, accountType] _ (by decide)).2.1
      "complex128" (Or.inl (by decide))⟩

/-- C9: let the member list of `S` be `pre ++ [m] ++ post` with `m` an inline member
whose type is the named composite `D` or a pointer to it.  When the members of
`pre` and the composite `D` render without error, the body `writeMembers`
writes for `S` is the body it writes for `pre`, followed by the body it writes
for `D` at the same indent, followed by the body it writes for `post`; and `S`
ends with the error, if any, of `post`. -/
theorem inline_member_flattened (owner : String) (docs : List String)
    (pre post : List Member) (m : Member) (indent : Nat) (dn r : String)
    (dms : List Member) (dd : List String)
    (hi : m.IsInline = true)
    (ht : m.Typ = .DefineStruct dn dms dd ∨ m.Typ = .PointerType r (.DefineStruct dn dms dd))
    (hpre : (writeMembers (.DefineStruct owner pre docs) false indent).2 = none)
    (hD : (writeMembers (.DefineStruct dn dms dd) false indent).2 = none) :
    (writeMembers (.DefineStruct owner (pre ++ [m] ++ post) docs) false indent).1 =
        (writeMembers (.DefineStruct owner pre docs) false indent).1 ++
        (writeMembers (.DefineStruct dn dms dd) false indent).1 ++
        (writeMembers (.DefineStruct owner post docs) false indent).1 ∧
    (writeMembers (.DefineStruct owner (pre ++ [m] ++ post) docs) false indent).2 =
        (writeMembers (.DefineStruct owner post docs) false indent).2 := by
  have hT : writeMembers m.Typ false indent =
      writeMembers (.DefineStruct dn dms dd) false indent := by
    rcases ht with ht | ht <;> rw [ht]
    simp [writeMembers]
  have hm := range_inline owner indent m hi (by rw [hT]; exact hD)
  rw [hT] at hm
  simp only [writeMembers] at hpre hD ⊢
  rw [List.append_assoc, range_append owner false indent pre _ hpre,
    range_append owner false indent [m] post (by rw [hm])]
  simp only [hm, writeMembers, String.append_assoc, and_self]

/-- C9 at `Wrap`, which embeds `User` between the scalar members `A` and `B`. -/
theorem inline_member_flattened_witness :
    (inlineField "User" userType).IsInline = true ∧
    (writeMembers (.DefineStruct "Wrap" [bodyField "A" "int"] []) false 2).2 = none ∧
    (writeMembers userType false 2).2 = none ∧
    (writeMembers wrapType false 2).1 =
        (writeMembers (.DefineStruct "Wrap" [bodyField "A" "int"] []) false 2).1 ++
        (writeMembers userType false 2).1 ++
        (writeMembers (.DefineStruct "Wrap" [bodyField "B" "bool"] []) false 2).1 ∧
    (writeMembers wrapType false 2).2 =
        (writeMembers (.DefineStruct "Wrap" [bodyField "B" "bool"] []) false 2).2 ∧
    (writeMembers wrapType false 2).1 =
      "\t\tA?: number\n\t\tId?: string\n\t\tName?: string\n\t\tB?: boolean\n" :=
  ⟨rfl, by decide, by decide,
    (inline_member_flattened "Wrap" [] [bodyField "A" "int"] [bodyField "B" "bool"]
      (inlineField "User" userType) 2 "User"
      "" [bodyField "Id" "int64", bodyField "Name" "string"] [] rfl (Or.inl rfl)
      (by decide) (by decide)).1,
    by decide, by decide⟩

/-- C10: for every member whose type is the scalar kind `string` and which declares
the enumerated options `opts`, `genTsType` returns, without error, the options
in declared order, each in single quotes, joined by ` | `, in place of
`string`. -/
theorem string_enum_union (m : Member) (opts : List String) (indent : Nat)
    (ht : m.Typ = .PrimitiveType "string") (he : m.GetEnumOptions = some opts) :
    genTsType m indent = (Join (opts.map (fun o => "'" ++ o ++ "'")) " | ", none) := by
  cases m with
  | mk n t ts c d inl =>
    simp only [Member.Typ] at ht
    subst ht
    simp [genTsType, he, enumOverride, goTypeToTs, primitiveType]

/-- C10 at a string member tagged `options=A|B`: the type is `'A' | 'B'`. -/
theorem string_enum_union_witness :
    enumField.Typ = .PrimitiveType "string" ∧ enumField.GetEnumOptions = some ["A", "B"] ∧
    genTsType enumField 2 = (Join (["A", "B"].map (fun o => "'" ++ o ++ "'")) " | ", none) ∧
    Join (["A", "B"].map (fun o => "'" ++ o ++ "'")) " | " = "'A' | 'B'" :=
  ⟨rfl, by decide, string_enum_union enumField ["A", "B"] 2 rfl (by decide), by decide⟩

/-- C11, as stated, fails: a member of base kind `int64` with the options `1|2`
renders as `'1' | '2'`, quoted, not as the bare `1 | 2`. -/
theorem int64_enum_is_quoted :
    int64EnumField.Typ = .PrimitiveType "int64" ∧
    int64EnumField.GetEnumOptions = some ["1", "2"] ∧
    genTsType int64EnumField 2 = ("'1' | '2'", none) ∧
    Join ["1", "2"] " | " = "1 | 2" := by
  refine ⟨rfl, by decide, by decide, by decide⟩

/-- C11, amended: for every member (not of nested-struct type) that declares the
enumerated options `opts`, the literals of the union `genTsType` returns are
quoted if and only if the type `goTypeToTs` renders for the member is
`string`; among the scalar kinds that is `string`, `uint64` and `int64`, and
for every other kind the options are joined by ` | ` bare. -/
theorem enum_quoted_iff_renders_string (m : Member) (opts : List String) (indent : Nat)
    (hn : ∀ rn ms ds, m.Typ ≠ .NestedStruct rn ms ds)
    (he : m.GetEnumOptions = some opts) :
    (genTsType m indent).1 =
      (if (goTypeToTs m.Typ false).1 = "string"
        then Join (opts.map (fun o => "'" ++ o ++ "'")) " | "
        else Join opts " | ") ∧
    (∀ k, (goTypeToTs (.PrimitiveType k) false).1 = "string" ↔
      k = "string" ∨ k = "uint64" ∨ k = "int64") := by
  constructor
  · cases m with
    | mk n t ts c d inl =>
      simp only [Member.Typ] at hn ⊢
      rw [genTsType_not_nested n c t ts d inl indent hn, he]
      simp only [enumOverride]
  · intro k
    simp only [goTypeToTs, primitiveType]
    split_ifs <;> simp_all

/-- C11, amended, at an `int32` member with the options `1|2`: bare `1 | 2`. -/
theorem enum_quoted_iff_renders_string_witness :
    (∀ rn ms ds, int32EnumField.Typ ≠ .NestedStruct rn ms ds) ∧
    int32EnumField.GetEnumOptions = some ["1", "2"] ∧
    (genTsType int32EnumField 2).1 =
      (if (goTypeToTs int32EnumField.Typ false).1 = "string"
        then Join (["1", "2"].map (fun o => "'" ++ o ++ "'")) " | "
        else Join ["1", "2"] " | ") ∧
    (genTsType int32EnumField 2).1 = "1 | 2" :=
  ⟨by intro rn ms ds; simp [int32EnumField, Member.Typ], by decide,
    (enum_quoted_iff_renders_string int32EnumField ["1", "2"] 2
      (by intro rn ms ds; simp [int32EnumField, Member.Typ]) (by decide)).1, by decide⟩

set_option maxRecDepth 10000 in
/-- C12, as stated, fails: for `Req` with a query-bound integer `Page` the `Params`
interface is `\texport interface ReqParams {\n\tPage?: number\n\t}\n\n`; its
interface line, its field line and its closing line stand behind one tab each,
so the field is not one tab deeper than the interface line, and the text of the
claim `export interface ReqParams {\n\tPage?: number\n}` occurs nowhere in what
`writeType` emits. -/
theorem params_field_not_deeper :
    genParamsTypesIfNeed pageRequest =
      ("\texport interface ReqParams \x7b\n\tPage?: number\n\t\x7d\n\n", none) ∧
    linesOf (genParamsTypesIfNeed pageRequest).1 =
      ["\texport interface ReqParams \x7b", "\tPage?: number", "\t\x7d", "", ""] ∧
    ¬ ("export interface ReqParams \x7b\n\tPage?: number\n\x7d").data <:+:
        (writeType pageRequest).1.data := by
  refine ⟨by rfl, by rfl, ?_⟩
  have h : (writeType pageRequest).1 =
      "\texport interface Req \x7b\n\t\t\t\x7d\n\n\texport interface ReqParams \x7b\n\tPage?: number\n\t\x7d\n\n" := by
    rfl
  rw [h]
  decide

/-- C12, amended: for a named composite with a non-body member whose query/form
members are non-inline scalars without docs or comment, the `Params` interface
is the line `\texport interface <Name>Params {`, then one line made of tabs and
`<name>?: <type>` per query/form member in member order, then the closing line
`\t}` and an empty line. -/
theorem params_block_of_queries (n : String) (ms : List Member) (d : List String)
    (hnb : (GetNonBodyMembers ms).length ≠ 0)
    (h : ∀ m ∈ ms, m.IsTagMember formTagKey = true → plainField m = true) :
    ∃ (pad : Nat) (rest : String),
      (genParamsTypesIfNeed (.DefineStruct n ms d)).1 =
        "\texport interface " ++ Title n ++ "Params \x7b\n" ++
          concatAll ((GetTagMembers ms formTagKey).map (fun m =>
            writeIndent pad ++ m.GetPropertyName.1 ++ "?: " ++ (genTsType m 1).1 ++ "\n")) ++
          "\t\x7d\n\n" ++ rest := by
  have hr := tagRange_of_fields n formTagKey (by decide) ms h
  have hf : (writeTagMembers (.DefineStruct n ms d) formTagKey).2 = none := by
    simp only [writeTagMembers, hr]
  obtain ⟨rest, hrest⟩ := genParams_form_text n ms d hnb hf
  refine ⟨1, rest, ?_⟩
  have e1 : writeIndent 1 = "\t" := rfl
  rw [hrest]
  simp only [paramsBlock, writeTagMembers, hr, SpecType.Name, String.append_assoc]
  simp only [e1, tab_export]
  rfl

/-- C12, amended, at Scenario B. -/
theorem params_block_of_queries_witness :
    (GetNonBodyMembers (membersOf pageRequest)).length ≠ 0 ∧
    (∀ m ∈ membersOf pageRequest, m.IsTagMember formTagKey = true → plainField m = true) ∧
    ∃ (pad : Nat) (rest : String),
      (genParamsTypesIfNeed pageRequest).1 =
        "\texport interface " ++ Title "Req" ++ "Params \x7b\n" ++
          concatAll ((GetTagMembers (membersOf pageRequest) formTagKey).map (fun m =>
            writeIndent pad ++ m.GetPropertyName.1 ++ "?: " ++ (genTsType m 1).1 ++ "\n")) ++
          "\t\x7d\n\n" ++ rest :=
  ⟨by decide, by decide,
    params_block_of_queries "Req" (membersOf pageRequest) [] (by decide) (by decide)⟩

/-- C13: when `genParamsTypesIfNeed` succeeds and emits a `Headers` interface, that
interface is its opening line, then exactly the field lines (`writeProperty` at
indent 1) of the members carrying a `header` tag, taken after inline expansion
and in member order, then its closing line; a member without a `header` tag
(bound to body, path or query/form only) has no line in it. -/
theorem headers_fields_are_header_members (n : String) (ms : List Member) (d : List String)
    (hok : (genParamsTypesIfNeed (.DefineStruct n ms d)).2 = none)
    (hnb : (GetNonBodyMembers ms).length ≠ 0)
    (hh : (GetTagMembers ms headerTagKey).length > 0) :
    (∃ before, (genParamsTypesIfNeed (.DefineStruct n ms d)).1 =
      before ++ "\texport interface " ++ Title n ++ "Headers \x7b\n" ++
      concatAll (((flattenType (.DefineStruct n ms d)).filter
        (fun m => m.IsTagMember headerTagKey)).map (fun m => (writeProperty m 1).1)) ++
      "\t\x7d\n\n") ∧
    ∀ m ∈ flattenType (.DefineStruct n ms d),
      m.IsTagMember headerTagKey = m.Tags.any (fun t => t.Key == headerTagKey) := by
  constructor
  · obtain ⟨ht, _⟩ := genParams_ok n ms d hok
    have hflat := tagMembers_flat _ headerTagKey (genParams_ok_header n ms d hok hnb hh)
    rw [ht, if_neg hnb, if_pos hh]
    refine ⟨paramsBlock (.DefineStruct n ms d) ++ "\n", ?_⟩
    have e1 : writeIndent 1 = "\t" := rfl
    simp only [headersBlock, hflat, SpecType.Name, e1, String.append_assoc, tab_export]
    rfl
  · intro m hm
    simp [Member.IsTagMember, flattenType_not_inline _ m hm]

/-- C13 at a request with a query-bound, a header-bound and a body member: the
`Headers` interface holds the header-bound `Token` only. -/
theorem headers_fields_are_header_members_witness :
    (genParamsTypesIfNeed authRequest).2 = none ∧
    (GetNonBodyMembers (membersOf authRequest)).length ≠ 0 ∧
    (GetTagMembers (membersOf authRequest) headerTagKey).length > 0 ∧
    (∃ before, (genParamsTypesIfNeed authRequest).1 =
      before ++ "\texport interface " ++ Title "AuthReq" ++ "Headers \x7b\n" ++
      concatAll (((flattenType authRequest).filter
        (fun m => m.IsTagMember headerTagKey)).map (fun m => (writeProperty m 1).1)) ++
      "\t\x7d\n\n") ∧
    ((flattenType authRequest).filter (fun m => m.IsTagMember headerTagKey)).map Member.Name
      = ["Token"] :=
  ⟨by decide, by decide, by decide,
    (headers_fields_are_header_members "AuthReq" (membersOf authRequest) []
      (by decide) (by decide) (by decide)).1,
    by decide⟩

/-- C14: for an array type named `[]byte`, `goTypeToTs` returns `Blob` (as
`primitiveType` does for the kind `[]byte`); for any other array type it returns
`Array<e>` when the element type renders to `e`, and the element's error when
the element type fails to render. -/
theorem array_rendering (n : String) (v : SpecType) (fromPacket : Bool) :
    (n = "[]byte" → goTypeToTs (.ArrayType n v) fromPacket = ("Blob", none)) ∧
    (n ≠ "[]byte" → ∀ e, goTypeToTs v fromPacket = (e, none) →
      goTypeToTs (.ArrayType n v) fromPacket = ("Array<" ++ e ++ ">", none)) ∧
    (n ≠ "[]byte" → ∀ s err, goTypeToTs v fromPacket = (s, some err) →
      goTypeToTs (.ArrayType n v) fromPacket = ("", some err)) ∧
    primitiveType "[]byte" = ("Blob", true) := by
  refine ⟨?_, ?_, ?_, by decide⟩
  · intro h; simp [goTypeToTs, h]
  · intro h e he; simp [goTypeToTs, h, he]
  · intro h s err he; simp [goTypeToTs, h, he]

/-- C14 at the raw-byte array, an array of 64-bit integers and an array of an
unmapped kind. -/
theorem array_rendering_witness :
    goTypeToTs (.ArrayType "[]byte" (.PrimitiveType "byte")) false = ("Blob", none) ∧
    goTypeToTs (.ArrayType "[]int64" (.PrimitiveType "int64")) false = ("Array<string>", none) ∧
    goTypeToTs (.ArrayType "[]complex128" (.PrimitiveType "complex128")) false =
      ("", some (.new "unsupported primitive type complex128")) :=
  ⟨(array_rendering "[]byte" (.PrimitiveType "byte") false).1 rfl,
    (array_rendering "[]int64" (.PrimitiveType "int64") false).2.1 (by decide) "string"
      (by decide),
    (array_rendering "[]complex128" (.PrimitiveType "complex128") false).2.2.1 (by decide) ""
      (.new "unsupported primitive type complex128") (by decide)⟩

/-- C15: for a map type whose value type renders to `v`, `goTypeToTs` returns
`{ [key: string]: v }` whatever the key kind is, and when the value type fails
to render it fails with the same error. -/
theorem map_rendering (n key : String) (v : SpecType) (fromPacket : Bool) :
    (∀ e, goTypeToTs v fromPacket = (e, none) →
      goTypeToTs (.MapType n key v) fromPacket = ("\x7b [key: string]: " ++ e ++ " \x7d", none)) ∧
    (∀ s err, goTypeToTs v fromPacket = (s, some err) →
      goTypeToTs (.MapType n key v) fromPacket = ("", some err)) := by
  refine ⟨?_, ?_⟩
  · intro e he; simp [goTypeToTs, he]
  · intro s err he; simp [goTypeToTs, he]

/-- C15 at a map keyed by `int` with 64-bit integer values. -/
theorem map_rendering_witness :
    goTypeToTs (.MapType "map[int]int64" "int" (.PrimitiveType "int64")) false =
      ("\x7b [key: string]: string \x7d", none) :=
  (map_rendering "map[int]int64" "int" (.PrimitiveType "int64") false).1 "string" (by decide)

/-- C16: `goTypeToTs`, `writeMembers` and `writeTagMembers` return on a pointer type
exactly what they return on its referent; a field of pointer type and a field
of the referent type write the same text and fail together, and unless the
referent is a nested struct (where both fail) `writeProperty` returns exactly
the same result for both. -/
theorem pointer_transparency (r n c : String) (t : SpecType) (ts : List Tag)
    (d : List String) (inl : Bool) (fromPacket isParam : Bool) (indent : Nat) :
    goTypeToTs (.PointerType r t) fromPacket = goTypeToTs t fromPacket ∧
    writeMembers (.PointerType r t) isParam indent = writeMembers t isParam indent ∧
    writeTagMembers (.PointerType r t) n = writeTagMembers t n ∧
    (writeProperty (.mk n (.PointerType r t) ts c d inl) indent).1 =
      (writeProperty (.mk n t ts c d inl) indent).1 ∧
    ((writeProperty (.mk n (.PointerType r t) ts c d inl) indent).2 = none ↔
      (writeProperty (.mk n t ts c d inl) indent).2 = none) ∧
    ((∀ rn ms ds, t ≠ .NestedStruct rn ms ds) →
      writeProperty (.mk n (.PointerType r t) ts c d inl) indent =
        writeProperty (.mk n t ts c d inl) indent) := by
  refine ⟨by simp [goTypeToTs], by simp [writeMembers], by simp [writeTagMembers],
    (pointer_line_text r n c t ts d inl indent).1,
    (pointer_line_text r n c t ts d inl indent).2, ?_⟩
  intro h
  unfold writeProperty
  rw [genTsType_not_nested n c t ts d inl indent h,
    genTsType_not_nested n c (.PointerType r t) ts d inl indent (by intro rn ms ds; simp)]
  simp only [goTypeToTs]
  rfl

/-- C16 at a field of type pointer to `int64`. -/
theorem pointer_transparency_witness :
    (∀ rn ms ds, SpecType.PrimitiveType "int64" ≠ .NestedStruct rn ms ds) ∧
    writeProperty (.mk "Id" (.PointerType "*int64" (.PrimitiveType "int64"))
        [⟨"json", "id", []⟩] "" [] false) 2 =
      writeProperty (.mk "Id" (.PrimitiveType "int64") [⟨"json", "id", []⟩] "" [] false) 2 ∧
    writeProperty (.mk "Id" (.PointerType "*int64" (.PrimitiveType "int64"))
        [⟨"json", "id", []⟩] "" [] false) 2 = ("\t\tid?: string\n", none) :=
  ⟨by intro rn ms ds; simp,
    (pointer_transparency "*int64" "Id" "" (.PrimitiveType "int64") [⟨"json", "id", []⟩] []
      false false false 2).2.2.2.2.2 (by intro rn ms ds; simp),
    by decide⟩

/-- C17: for non-empty lists `xs` and `ys` of composites on each of which
`BuildTypes` succeeds, `BuildTypes (xs ++ ys)` succeeds with the text of `xs`,
a newline, and the text of `ys`. -/
theorem buildTypes_append (xs ys : List SpecType) (hx : xs ≠ []) (hy : ys ≠ [])
    (hxs : (BuildTypes xs).2 = none) (hys : (BuildTypes ys).2 = none) :
    BuildTypes (xs ++ ys) = ((BuildTypes xs).1 ++ "\n" ++ (BuildTypes ys).1, none) := by
  rw [BuildTypes_err] at hxs hys
  have ax := loop_none true xs hxs
  have ay := loop_none true ys hys
  have axy : ∀ tp ∈ xs ++ ys, (writeType tp).2 = none := by
    intro tp h
    rcases List.mem_append.mp h with h | h
    · exact ax tp h
    · exact ay tp h
  rw [BuildTypes_ok _ axy, BuildTypes_ok _ ax, BuildTypes_ok _ ay, List.map_append,
    Join_append _ _ _ (by simpa using hx) (by simpa using hy)]

/-- C17 at `[User] ++ [Empty]`. -/
theorem buildTypes_append_witness :
    [userType] ≠ [] ∧ [emptyType] ≠ [] ∧ (BuildTypes [userType]).2 = none ∧
    (BuildTypes [emptyType]).2 = none ∧
    BuildTypes ([userType] ++ [emptyType]) =
      ((BuildTypes [userType]).1 ++ "\n" ++ (BuildTypes [emptyType]).1, none) :=
  ⟨by simp, by simp, by decide, by decide,
    buildTypes_append [userType] [emptyType] (by simp) (by simp) (by decide) (by decide)⟩

/-- C18: for a member without leading docs whose type `genTsType` renders to `t` and
whose property name is `name`, `writeProperty` writes the indent and then
`<name>?: t` and a newline when the member has no comment, and
`<name>?: t // <c>` and a newline when it has one, where `<c>` is the comment
`GetComment()` returns (the source comment, trimmed) without one leading `//`
and trimmed again; the `?` is there whatever the tag options are. -/
theorem property_line_format (m : Member) (indent : Nat) (t name : String)
    (hg : genTsType m indent = (t, none)) (hn : m.GetPropertyName = (name, none))
    (hd : m.Docs = []) :
    (m.GetComment = "" →
      writeProperty m indent = (writeIndent indent ++ (name ++ "?: " ++ t ++ "\n"), none)) ∧
    (m.GetComment ≠ "" →
      writeProperty m indent =
        (writeIndent indent ++
          (name ++ "?: " ++ t ++ " // " ++ TrimSpace (TrimPrefix m.GetComment "//") ++ "\n"),
          none)) ∧
    m.GetComment = TrimSpace m.Comment := by
  have h := writeProperty_line m indent t name hg hn hd
  refine ⟨?_, ?_, rfl⟩
  · intro hc
    rw [h]
    simp [commentSuffix, hc]
  · intro hc
    rw [h]
    simp [commentSuffix, hc, String.append_assoc]

/-- C18 at an optional integer member with the comment `  // years  `. -/
theorem property_line_format_witness :
    genTsType commentedField 2 = ("number", none) ∧
    commentedField.GetPropertyName = ("age", none) ∧ commentedField.Docs = [] ∧
    commentedField.GetComment ≠ "" ∧
    writeProperty commentedField 2 =
      (writeIndent 2 ++
        ("age" ++ "?: " ++ "number" ++ " // " ++
          TrimSpace (TrimPrefix commentedField.GetComment "//") ++ "\n"), none) ∧
    writeProperty commentedField 2 = ("\t\tage?: number // years\n", none) :=
  ⟨by decide, by decide, rfl, by decide,
    (property_line_format commentedField 2 "number" "age" (by decide) (by decide) rfl).2.1
      (by decide),
    by decide⟩

/-- C19, as stated, fails: `primitiveType` also succeeds on `int`, `uint`, `float`
and `interface{}`, none of which is in the closed set of the spec. -/
theorem primitive_accepts_more_kinds :
    primitiveType "int" = ("number", true) ∧ primitiveType "uint" = ("number", true) ∧
    primitiveType "float" = ("number", true) ∧
    primitiveType "interface\x7b\x7d" = ("any", true) ∧
    "int" ∉ specKinds ∧ "uint" ∉ specKinds ∧ "float" ∉ specKinds ∧
    "interface\x7b\x7d" ∉ specKinds := by
  decide

/-- C19, amended: for every scalar kind name `k`, either `primitiveType k` succeeds
with a result among `string`, `number`, `boolean`, `Blob`, `any`, or it reports
failure and `goTypeToTs` on the primitive `k` returns the error `unsupported
primitive type k`.  It succeeds exactly on `string`, `int`, `uint`, the
integers of width 8, 16, 32 and 64, `float`, `float32`, `float64`, `bool`,
`[]byte`, `interface{}` and `any`; `int`, `uint`, the integers of width 8, 16
and 32 and the float kinds map to `number`, `string` and the 64-bit integers to
`string`, `bool` to `boolean`, `[]byte` to `Blob`, `any` and `interface{}` to
`any`. -/
theorem primitive_kinds (k : String) :
    (((primitiveType k).2 = true ∧
        (primitiveType k).1 ∈ ["string", "number", "boolean", "Blob", "any"]) ∨
      ((primitiveType k).2 = false ∧ ∀ fromPacket,
        goTypeToTs (.PrimitiveType k) fromPacket =
          ("", some (.new ("unsupported primitive type " ++ k))))) ∧
    ((primitiveType k).2 = true ↔ k ∈ mappedKinds) ∧
    (k ∈ ["int", "int8", "int16", "int32", "uint", "uint8", "uint16", "uint32",
        "float", "float32", "float64"] → primitiveType k = ("number", true)) ∧
    (k ∈ ["string", "int64", "uint64"] → primitiveType k = ("string", true)) ∧
    (k = "bool" → primitiveType k = ("boolean", true)) ∧
    (k = "[]byte" → primitiveType k = ("Blob", true)) ∧
    (k ∈ ["any", "interface\x7b\x7d"] → primitiveType k = ("any", true)) := by
  refine ⟨?_, ?_, ?_, ?_, ?_, ?_, ?_⟩
  · by_cases h : (primitiveType k).2 = true
    · left
      refine ⟨h, ?_⟩
      unfold primitiveType at h ⊢
      split_ifs at h ⊢ <;> simp at h ⊢
    · right
      simp only [Bool.not_eq_true] at h
      exact ⟨h, fun fp => by simp [goTypeToTs, h]⟩
  · unfold primitiveType mappedKinds
    split_ifs <;> simp <;> tauto
  · intro h
    simp only [List.mem_cons, List.mem_singleton, List.not_mem_nil, or_false] at h
    rcases h with h | h | h | h | h | h | h | h | h | h | h <;> subst h <;> decide
  · intro h
    simp only [List.mem_cons, List.mem_singleton, List.not_mem_nil, or_false] at h
    rcases h with h | h | h <;> subst h <;> decide
  · intro h; subst h; decide
  · intro h; subst h; decide
  · intro h
    simp only [List.mem_cons, List.mem_singleton, List.not_mem_nil, or_false] at h
    rcases h with h | h <;> subst h <;> decide

/-- C19, amended, at the kinds `int` (mapped to `number`) and `complex128`
(unmapped). -/
theorem primitive_kinds_witness :
    "int" ∈ ["int", "int8", "int16", "int32", "uint", "uint8", "uint16", "uint32",
        "float", "float32", "float64"] ∧
    primitiveType "int" = ("number", true) ∧
    "complex128" ∉ mappedKinds ∧ (primitiveType "complex128").2 ≠ true :=
  ⟨by decide, (primitive_kinds "int").2.2.1 (by decide), by decide,
    fun h => absurd ((primitive_kinds "complex128").2.1.mp h) (by decide)⟩

/-- C20: for a named composite with source name `n`, what `writeType` writes starts
(after the documentation block) with the interface line naming `Title n`, the
capitalized name; the companions `genParamsTypesIfNeed` emits are named
`Title n` followed by `Params` and `Headers`; and `goTypeToTs` on a reference
to the composite, called with `fromPacket = false` as `genTsType` calls it
(generate.go, line 264), never fails and returns exactly `Title n` whatever
the members are, so a field of that type is rendered with the type `Title n`
(subject to the enum override). -/
theorem interface_names (n : String) (ms : List Member) (d : List String) :
    (∃ rest, (writeType (.DefineStruct n ms d)).1 =
      (if d.length > 0 then "\t" ++ (Join d "\n" ++ "\n") else "") ++
        "\texport interface " ++ Title n ++ " \x7b\n" ++ rest) ∧
    ((genParamsTypesIfNeed (.DefineStruct n ms d)).2 = none →
      (GetNonBodyMembers ms).length ≠ 0 →
      ∃ rest, (genParamsTypesIfNeed (.DefineStruct n ms d)).1 =
        "\texport interface " ++ Title n ++ "Params \x7b\n" ++ rest) ∧
    ((genParamsTypesIfNeed (.DefineStruct n ms d)).2 = none →
      (GetNonBodyMembers ms).length ≠ 0 → (GetTagMembers ms headerTagKey).length > 0 →
      ∃ before rest, (genParamsTypesIfNeed (.DefineStruct n ms d)).1 =
        before ++ "\texport interface " ++ Title n ++ "Headers \x7b\n" ++ rest) ∧
    goTypeToTs (.DefineStruct n ms d) false = (Title n, none) ∧
    (∀ (mn c : String) (ts : List Tag) (docs : List String) (inl : Bool) (indent : Nat),
      genTsType (.mk mn (.DefineStruct n ms d) ts c docs inl) indent =
        (enumOverride (Title n)
          (Member.GetEnumOptions (.mk mn (.DefineStruct n ms d) ts c docs inl)), none)) := by
  have e1 : writeIndent 1 = "\t" := rfl
  refine ⟨?_, ?_, ?_, ?_, ?_⟩
  · unfold writeType
    rcases writeMembers (.DefineStruct n ms d) false 2 with ⟨s, _ | e⟩
    · exact ⟨_, by
        simp only [writeTypeHead, SpecType.Documents, SpecType.Name, e1, String.append_assoc,
          tab_export]
        rfl⟩
    · exact ⟨_, by
        simp only [writeTypeHead, SpecType.Documents, SpecType.Name, e1, String.append_assoc,
          tab_export]
        rfl⟩
  · intro hok hnb
    obtain ⟨ht, _⟩ := genParams_ok n ms d hok
    rw [ht, if_neg hnb]
    exact ⟨_, by
      simp only [paramsBlock, SpecType.Name, e1, String.append_assoc, tab_export]
      rfl⟩
  · intro hok hnb hh
    obtain ⟨ht, _⟩ := genParams_ok n ms d hok
    rw [ht, if_neg hnb, if_pos hh]
    exact ⟨paramsBlock (.DefineStruct n ms d) ++ "\n", _, by
      simp only [headersBlock, SpecType.Name, e1, String.append_assoc, tab_export]
      rfl⟩
  · simp [goTypeToTs, addPrefix, SpecType.Name]
  · intro mn c ts docs inl indent
    rw [genTsType_not_nested mn c (.DefineStruct n ms d) ts docs inl indent
      (by intro rn ms2 ds; simp)]
    simp [goTypeToTs, addPrefix, SpecType.Name]

/-- C20 at the request with a query-bound and a header-bound member. -/
theorem interface_names_witness :
    (genParamsTypesIfNeed authRequest).2 = none ∧
    (GetNonBodyMembers (membersOf authRequest)).length ≠ 0 ∧
    (GetTagMembers (membersOf authRequest) headerTagKey).length > 0 ∧
    (∃ rest, (genParamsTypesIfNeed authRequest).1 =
        "\texport interface " ++ Title "AuthReq" ++ "Params \x7b\n" ++ rest) ∧
    (∃ before rest, (genParamsTypesIfNeed authRequest).1 =
        before ++ "\texport interface " ++ Title "AuthReq" ++ "Headers \x7b\n" ++ rest) :=
  ⟨by decide, by decide, by decide,
    (interface_names "AuthReq" (membersOf authRequest) []).2.1 (by decide) (by decide),
    (interface_names "AuthReq" (membersOf authRequest) []).2.2.1 (by decide) (by decide)
      (by decide)⟩

end Typings
